import Mathlib

/-!
# intersectionSimulation.c : a verification development

A shallow embedding of `src/intersectionSimulation.c` and theorems about it.

Modelling conventions

* `double` values are exact rationals (`ℚ`): every constant of the program
  (`0.0002`, `40.0`, the integer coordinates) is rational and the theorems
  are about the comparisons and the arithmetic, not about rounding.
* `int` values are mathematical integers (`Int`).  The only `int` that grows
  is `g.ncollisions`, by at most 12 per frame; signed overflow is undefined
  behaviour in C and lies outside the model.
* `x >> 1` on an `int` is the arithmetic shift, `Int.shiftRight`.
* `rand()` is a stream of naturals carried in the state; a call returns the
  head and advances the stream.  `srand` installs a new stream.
* The X11 handles of `struct Global` (display, window, graphics context, back
  buffer) carry no simulation state and are left out.
* `sem_t sem` is a counter of available permits together with a flag that
  records whether `sem_init` has been called on it.
-/

namespace Intersection

/-! ## Data model -/

/-- The fields of `struct Global` that the simulation reads or writes. -/
structure Global where
  xres : Int
  yres : Int
  collision_flag : Int
  collision0 : Int
  collision1 : Int
  collision2 : Int
  collision3 : Int
  crash0 : Int
  crash1 : Int
  show_collisions : Int
  ncollisions : Int
  slow_mode : Int

/-- A `struct Box`: centre `pos`, velocity `vel`, integer extent `w`, `h`. -/
structure Box where
  pos0 : ℚ
  pos1 : ℚ
  vel0 : ℚ
  vel1 : ℚ
  w : Int
  h : Int

/-- The process-wide data: `g`, `intersection`, `cars[4]`, the state of the
random number generator, and the two `static` variables of `check_mouse`. -/
structure World where
  g : Global
  intersection : Box
  cars : Fin 4 → Box
  rng : Nat → Nat
  savex : Int
  savey : Int

/-- The call `rand()`: the next value of the stream, and the stream advanced. -/
def rand (s : World) : Nat × World :=
  (s.rng 0, { s with rng := fun k => s.rng (k + 1) })

/-- Assignment to `cars[i]`. -/
def setCar (s : World) (i : Fin 4) (b : Box) : World :=
  { s with cars := Function.update s.cars i b }

/-- The expression `rand() % 3 + 1`, for the value `r` that `rand()` returned. -/
def speed (r : Nat) : Int :=
  ((r % 3 + 1 : Nat) : Int)

/-- The expression `rand() % 6 + 10`, for the value `r` that `rand()` returned. -/
def stretch (r : Nat) : Int :=
  ((r % 6 + 10 : Nat) : Int)

/-! ## Geometry: `overlap` (source lines 106-118) -/

/-- The function `overlap`: 0 as soon as one of the four separation tests
succeeds, 1 otherwise. -/
def overlap (c i : Box) : Int :=
  if c.pos0 + ((c.w >>> (1 : Nat) : Int) : ℚ) < i.pos0 - ((i.w >>> (1 : Nat) : Int) : ℚ) then 0
  else if c.pos0 - ((c.w >>> (1 : Nat) : Int) : ℚ) > i.pos0 + ((i.w >>> (1 : Nat) : Int) : ℚ) then 0
  else if c.pos1 + ((c.h >>> (1 : Nat) : Int) : ℚ) < i.pos1 - ((i.h >>> (1 : Nat) : Int) : ℚ) then 0
  else if c.pos1 - ((c.h >>> (1 : Nat) : Int) : ℚ) > i.pos1 + ((i.h >>> (1 : Nat) : Int) : ℚ) then 0
  else 1

/-! ## Initialisation: `init` (source lines 277-353) and `init_xwindows` -/

/-- The function `init`.  `seed` is the stream that `srand((unsigned)time(NULL))`
installs.  `g.xres / 2` is C integer division (truncation). -/
def init (seed : Nat → Nat) (s : World) : World :=
  let s := { s with rng := seed }
  let s := { s with g := { s.g with collision_flag := 0 } }
  let s := { s with g := { s.g with show_collisions := 0 } }
  let s := { s with g := { s.g with ncollisions := 0 } }
  let s := { s with g := { s.g with slow_mode := 0 } }
  -- the intersection
  let s := { s with intersection :=
    { w := 100, h := 100,
      pos0 := ((Int.tdiv s.g.xres 2 : Int) : ℚ), pos1 := ((Int.tdiv s.g.yres 2 : Int) : ℚ),
      vel0 := 0, vel1 := 0 } }
  -- for (i = 0; i < 4; i++)
  let s := ([0, 1, 2, 3] : List (Fin 4)).foldl (fun s i => setCar s i
    { w := 18, h := 18, pos0 := s.intersection.pos0, pos1 := s.intersection.pos1,
      vel0 := 0, vel1 := 0 }) s
  let offset : Int := 21
  -- Car heading West, i = 0
  let (r, s) := rand s
  let s := setCar s 0 { s.cars 0 with w := (s.cars 0).w + stretch r }
  let s := setCar s 0 { s.cars 0 with pos0 := ((s.g.xres + 30 : Int) : ℚ) }
  let s := setCar s 0 { s.cars 0 with pos1 := (s.cars 0).pos1 - (offset : ℚ) }
  let (r, s) := rand s
  let s := setCar s 0 { s.cars 0 with vel0 := ((-(speed r) : Int) : ℚ) }
  let s := setCar s 0 { s.cars 0 with vel1 := 0 }
  -- Car heading South, i = 1
  let (r, s) := rand s
  let s := setCar s 1 { s.cars 1 with h := (s.cars 1).h + stretch r }
  let s := setCar s 1 { s.cars 1 with pos0 := (s.cars 1).pos0 - (offset : ℚ) }
  let s := setCar s 1 { s.cars 1 with pos1 := -30 }
  let s := setCar s 1 { s.cars 1 with vel0 := 0 }
  let (r, s) := rand s
  let s := setCar s 1 { s.cars 1 with vel1 := ((speed r : Int) : ℚ) }
  -- Car heading East, i = 2
  let (r, s) := rand s
  let s := setCar s 2 { s.cars 2 with w := (s.cars 2).w + stretch r }
  let s := setCar s 2 { s.cars 2 with pos0 := -40 }
  let s := setCar s 2 { s.cars 2 with pos1 := (s.cars 2).pos1 + (offset : ℚ) }
  let (r, s) := rand s
  let s := setCar s 2 { s.cars 2 with vel0 := ((speed r : Int) : ℚ) }
  let s := setCar s 2 { s.cars 2 with vel1 := 0 }
  -- Car heading North, i = 3
  let (r, s) := rand s
  let s := setCar s 3 { s.cars 3 with h := (s.cars 3).h + stretch r }
  let s := setCar s 3 { s.cars 3 with pos0 := (s.cars 3).pos0 + (offset : ℚ) }
  let s := setCar s 3 { s.cars 3 with pos1 := ((s.g.yres + 30 : Int) : ℚ) }
  let s := setCar s 3 { s.cars 3 with vel0 := 0 }
  let (r, s) := rand s
  let s := setCar s 3 { s.cars 3 with vel1 := ((-(speed r) : Int) : ℚ) }
  -- Scale the velocity...
  ([0, 1, 2, 3] : List (Fin 4)).foldl (fun s i =>
    let s := setCar s i { s.cars i with vel0 := (s.cars i).vel0 * 0.0002 }
    setCar s i { s.cars i with vel1 := (s.cars i).vel1 * 0.0002 }) s

/-- The effect of `init_xwindows(w, h)` on the simulation state: it stores the
size; everything else it does concerns the X11 handles. -/
def init_xwindows (w h : Int) (s : World) : World :=
  { s with g := { s.g with xres := w, yres := h } }

/-! ## The car thread: `traffic` (source lines 120-181) -/

/-- The function `fib` (lines 99-104), with fuel for the depth of the
recursion: `none` when the fuel runs out. -/
def fib : Nat → Int → Option Int
  | 0, _ => none
  | fuel + 1, n =>
    if n = 1 ∨ n = 2 then some 1
    else
      match fib fuel (n - 1), fib fuel (n - 2) with
      | some a, some b => some (a + b)
      | _, _ => none

/-- The statement `fib(rand() % 5 + 2);`: `fib` returns on every argument from
1 up (`fib_returns`) and its value is discarded, what remains is the call of
`rand`. -/
def throttle (s : World) : World :=
  (rand s).2

/-- The statements "move the car" (lines 129-130 and 143-144). -/
def move (carnum : Fin 4) (s : World) : World :=
  let s := setCar s carnum
    { s.cars carnum with pos0 := (s.cars carnum).pos0 + (s.cars carnum).vel0 }
  setCar s carnum
    { s.cars carnum with pos1 := (s.cars carnum).pos1 + (s.cars carnum).vel1 }

/-- The test "left" (lines 152-157). -/
def wrap_left (carnum : Fin 4) (s : World) : World :=
  if (s.cars carnum).pos0 < -20 ∧ (s.cars carnum).vel0 < 0 then
    let s := setCar s carnum
      { s.cars carnum with pos0 := (s.cars carnum).pos0 + ((s.g.xres : ℚ) + 40) }
    let (r, s) := rand s
    let s := setCar s carnum
      { s.cars carnum with vel0 := ((-(speed r) : Int) : ℚ) }
    setCar s carnum { s.cars carnum with vel0 := (s.cars carnum).vel0 * 0.0002 }
  else s

/-- The test "top" (lines 159-164). -/
def wrap_top (carnum : Fin 4) (s : World) : World :=
  if (s.cars carnum).pos1 < -20 ∧ (s.cars carnum).vel1 < 0 then
    let s := setCar s carnum
      { s.cars carnum with pos1 := (s.cars carnum).pos1 + ((s.g.yres : ℚ) + 40) }
    let (r, s) := rand s
    let s := setCar s carnum
      { s.cars carnum with vel1 := ((-(speed r) : Int) : ℚ) }
    setCar s carnum { s.cars carnum with vel1 := (s.cars carnum).vel1 * 0.0002 }
  else s

/-- The test "right" (lines 166-171). -/
def wrap_right (carnum : Fin 4) (s : World) : World :=
  if (s.cars carnum).pos0 > ((s.g.xres + 20 : Int) : ℚ) ∧ (s.cars carnum).vel0 > 0 then
    let s := setCar s carnum
      { s.cars carnum with pos0 := (s.cars carnum).pos0 - ((s.g.xres : ℚ) + 40) }
    let (r, s) := rand s
    let s := setCar s carnum
      { s.cars carnum with vel0 := ((speed r : Int) : ℚ) }
    setCar s carnum { s.cars carnum with vel0 := (s.cars carnum).vel0 * 0.0002 }
  else s

/-- The test "bottom" (lines 173-178). -/
def wrap_bottom (carnum : Fin 4) (s : World) : World :=
  if (s.cars carnum).pos1 > ((s.g.yres + 20 : Int) : ℚ) ∧ (s.cars carnum).vel1 > 0 then
    let s := setCar s carnum
      { s.cars carnum with pos1 := (s.cars carnum).pos1 - ((s.g.yres : ℚ) + 40) }
    let (r, s) := rand s
    let s := setCar s carnum
      { s.cars carnum with vel1 := ((speed r : Int) : ℚ) }
    setCar s carnum { s.cars carnum with vel1 := (s.cars carnum).vel1 * 0.0002 }
  else s

/-- The four window tests at the end of the loop body (lines 152-178), in the
order of the source: left, top, right, bottom. -/
def wrap (carnum : Fin 4) (s : World) : World :=
  wrap_bottom carnum (wrap_right carnum (wrap_top carnum (wrap_left carnum s)))

/-- The semaphore `sem` (line 29): the number of available permits, and
whether `sem_init` was ever called on the object. -/
structure Sem where
  value : Nat
  initialised : Bool

/-- Where a car thread stands in the body of `traffic`. -/
inductive Pc where
  /-- At the head of the `while (1)` loop, line 127. -/
  | top
  /-- At the call `sem_wait(&sem)`, line 134. -/
  | at_sem_wait
  /-- At the test of the inner `while`, line 136: `sem_wait` has returned. -/
  | in_loop
  /-- At the call `sem_post(&sem)`, line 147. -/
  | at_sem_post
  /-- At the window tests, line 152. -/
  | at_wrap
  deriving DecidableEq

/-- The whole process as the car threads see it. -/
structure Sys where
  world : World
  sem : Sem
  pc : Fin 4 → Pc

/-- One step of the thread `traffic((void *)carnum)`; `none` when the thread
is blocked in `sem_wait`.  (Line 134 of the source lacks its `;`, the call is
read as the statement it is meant to be.) -/
def traffic_step (carnum : Fin 4) (s : Sys) : Option Sys :=
  match s.pc carnum with
  | Pc.top =>
      let w := throttle s.world
      let w := move carnum w
      if overlap (w.cars carnum) w.intersection ≠ 0 then
        some { s with world := w, pc := Function.update s.pc carnum Pc.at_sem_wait }
      else
        some { s with world := w, pc := Function.update s.pc carnum Pc.at_wrap }
  | Pc.at_sem_wait =>
      if 0 < s.sem.value then
        some { s with sem := { s.sem with value := s.sem.value - 1 },
                      pc := Function.update s.pc carnum Pc.in_loop }
      else none
  | Pc.in_loop =>
      if overlap (s.world.cars carnum) s.world.intersection ≠ 0 then
        let w := throttle s.world
        -- if (g.slow_mode) fib(19);
        let w := move carnum w
        some { s with world := w }
      else
        some { s with pc := Function.update s.pc carnum Pc.at_sem_post }
  | Pc.at_sem_post =>
      some { s with sem := { s.sem with value := s.sem.value + 1 },
                    pc := Function.update s.pc carnum Pc.at_wrap }
  | Pc.at_wrap =>
      some { s with world := wrap carnum s.world,
                    pc := Function.update s.pc carnum Pc.top }

/-- One step of the process: some car thread takes a step. -/
def Step (s t : Sys) : Prop :=
  ∃ carnum : Fin 4, traffic_step carnum s = some t

/-- The states the four threads can reach from `s`, in any interleaving. -/
inductive Reachable (s : Sys) : Sys → Prop where
  | start : Reachable s s
  | step {t u : Sys} : Reachable s t → Step t u → Reachable s u

/-- A car holds the token when it is between the return of `sem_wait` and
the call of `sem_post`. -/
def holds (p : Pc) : Bool :=
  match p with
  | Pc.in_loop => true
  | Pc.at_sem_post => true
  | _ => false

/-- The number of cars that hold the token. -/
def holders (s : Sys) : Nat :=
  (([0, 1, 2, 3] : List (Fin 4)).filter (fun i => holds (s.pc i))).length

/-! ## The collision pass: `physics` (source lines 429-453) -/

/-- Conversion of a `double` to `int`: truncation towards zero. -/
def toInt (q : ℚ) : Int :=
  Int.tdiv q.num q.den

/-- The body of the inner loop of `physics` for one pair `(i, j)`. -/
def physics_pair (i j : Fin 4) (s : World) : World :=
  if i = j then s
  else if overlap (s.cars i) (s.cars j) ≠ 0 then
    { s with g := { s.g with
        collision_flag := 1,
        collision0 := toInt (s.cars i).pos0,
        collision1 := toInt (s.cars i).pos1,
        collision2 := toInt (s.cars j).pos0,
        collision3 := toInt (s.cars j).pos1,
        crash0 := (i : Nat),
        crash1 := (j : Nat),
        ncollisions := s.g.ncollisions + 1 } }
  else s

/-- The function `physics`. -/
def physics (s : World) : World :=
  let s := { s with g := { s.g with collision_flag := 0 } }
  ([0, 1, 2, 3] : List (Fin 4)).foldl (fun s i =>
    ([0, 1, 2, 3] : List (Fin 4)).foldl (fun s j => physics_pair i j s) s) s

/-! ## Events: `check_resize`, `check_mouse`, `check_keys` and the main loop -/

/-- The `XEvent`s the program distinguishes.  A key event carries the keysym
that `XLookupKeysym(&e->xkey, 0)` returns for it. -/
inductive XEvent where
  | ConfigureNotify (width height : Int)
  | KeyPress (key : Nat)
  | KeyRelease (key : Nat)
  | ButtonPress (button : Nat) (x y : Int)
  | ButtonRelease (button : Nat) (x y : Int)
  | MotionNotify (x y : Int)
  | Other

/-- The keysym `XK_c` of `X11/keysymdef.h`. -/
def XK_c : Nat := 0x0063

/-- The keysym `XK_s` of `X11/keysymdef.h`. -/
def XK_s : Nat := 0x0073

/-- The keysym `XK_Escape` of `X11/keysymdef.h`. -/
def XK_Escape : Nat := 0xff1b

/-- The function `check_resize` (lines 355-365); `seed` is the stream the
`srand` call of `init` installs. -/
def check_resize (seed : Nat → Nat) (e : XEvent) (s : World) : World :=
  match e with
  | XEvent.ConfigureNotify width height =>
      let s := { s with g := { s.g with xres := width } }
      let s := { s with g := { s.g with yres := height } }
      init seed s
  | _ => s

/-- The function `check_mouse` (lines 374-405). -/
def check_mouse (e : XEvent) (s : World) : World :=
  match e with
  | XEvent.MotionNotify x y =>
      if s.savex ≠ x ∨ s.savey ≠ y then { s with savex := x, savey := y } else s
  | _ => s

/-- The function `check_keys` (lines 407-427): the value returned and the
state. -/
def check_keys (e : XEvent) (s : World) : Int × World :=
  match e with
  | XEvent.KeyPress key =>
      if key = XK_c then
        (0, { s with g := { s.g with show_collisions := Int.xor s.g.show_collisions 1 } })
      else if key = XK_s then
        (0, { s with g := { s.g with slow_mode := Int.xor s.g.slow_mode 1 } })
      else if key = XK_Escape then (1, s)
      else (0, s)
  | _ => (0, s)

/-- An event waiting in the queue, with the stream `srand(time(NULL))` would
install if `init` ran while it is handled. -/
structure Pending where
  seed : Nat → Nat
  e : XEvent

/-- The body of the inner loop of `main` (lines 83-87) for one event. -/
def handle (p : Pending) (s : World) : Int × World :=
  let s := check_resize p.seed p.e s
  let s := check_mouse p.e s
  check_keys p.e s

/-- One iteration of the outer loop of `main` (lines 80-93): every pending
event is handled, then `physics` runs.  `render`, `XdbeSwapBuffers` and
`usleep` do not write the simulation state.  The result is `done` and the
state. -/
def tick (queue : List Pending) (s : World) : Int × World :=
  let r := queue.foldl (fun (r : Int × World) p => handle p r.2) (0, s)
  (r.1, physics r.2)

/-- The objects with static storage duration before `main` runs: all zero. -/
def static_world (rng : Nat → Nat) : World :=
  { g := ⟨0, 0, 0, 0, 0, 0, 0, 0, 0, 0, 0, 0⟩,
    intersection := ⟨0, 0, 0, 0, 0, 0⟩,
    cars := fun _ => ⟨0, 0, 0, 0, 0, 0⟩,
    rng := rng, savex := 0, savey := 0 }

/-- The object `sem` before `main` runs: zero-filled, never passed to
`sem_init`. -/
def static_sem : Sem :=
  { value := 0, initialised := false }

/-- The state in which `main` creates the four threads (lines 67-75):
`init()`, then `init_xwindows(400, 400)`.  Nothing on the way writes `sem`. -/
def main_start (seed : Nat → Nat) : Sys :=
  { world := init_xwindows 400 400 (init seed (static_world seed)),
    sem := static_sem,
    pc := fun _ => Pc.top }

/-- The control thread handling the event `e` while the car threads exist:
`check_resize` (and `init` under it) writes `g`, `intersection` and `cars`; it
contains no call on `sem` and does not move any thread. -/
def on_resize (seed : Nat → Nat) (e : XEvent) (s : Sys) : Sys :=
  { s with world := check_resize seed e s.world }

/-- What the car threads do to the shared data, in any order: a call of
`rand`, a position advance of some car, the window tests of some car. -/
inductive Drives (s : World) : World → Prop where
  | start : Drives s s
  | throttle {t : World} : Drives s t → Drives s (throttle t)
  | move {t : World} (carnum : Fin 4) : Drives s t → Drives s (move carnum t)
  | wrap {t : World} (carnum : Fin 4) : Drives s t → Drives s (wrap carnum t)

/-! ## Vocabulary of the statements -/

/-- Left edge of a box: centre minus the half extent `w >> 1`. -/
def Box.left (b : Box) : ℚ :=
  b.pos0 - ((b.w >>> (1 : Nat) : Int) : ℚ)

/-- Right edge of a box: centre plus the half extent `w >> 1`. -/
def Box.right (b : Box) : ℚ :=
  b.pos0 + ((b.w >>> (1 : Nat) : Int) : ℚ)

/-- Top edge of a box: centre minus the half extent `h >> 1`. -/
def Box.top (b : Box) : ℚ :=
  b.pos1 - ((b.h >>> (1 : Nat) : Int) : ℚ)

/-- Bottom edge of a box: centre plus the half extent `h >> 1`. -/
def Box.bottom (b : Box) : ℚ :=
  b.pos1 + ((b.h >>> (1 : Nat) : Int) : ℚ)

/-- The reading of the specification: the projections of the two boxes
interpenetrate strictly on both axes. -/
def strictly_interpenetrate (c i : Box) : Prop :=
  i.left < c.right ∧ c.left < i.right ∧ i.top < c.bottom ∧ c.top < i.bottom

/-- What the four tests of `overlap` leave: the closed projections of the two
boxes meet on both axes. -/
def projections_meet (c i : Box) : Prop :=
  i.left ≤ c.right ∧ c.left ≤ i.right ∧ i.top ≤ c.bottom ∧ c.top ≤ i.bottom

/-- The pairs `(i, j)` in the order in which the loops of `physics` visit them. -/
def pairs : List (Fin 4 × Fin 4) :=
  [(0, 0), (0, 1), (0, 2), (0, 3), (1, 0), (1, 1), (1, 2), (1, 3),
   (2, 0), (2, 1), (2, 2), (2, 3), (3, 0), (3, 1), (3, 2), (3, 3)]

/-- The pair `p` is a pair of distinct cars whose boxes overlap. -/
def collide (cars : Fin 4 → Box) (p : Fin 4 × Fin 4) : Prop :=
  p.1 ≠ p.2 ∧ overlap (cars p.1) (cars p.2) = 1

instance collideDecidable (cars : Fin 4 → Box) : DecidablePred (collide cars) :=
  fun p => by unfold collide; infer_instance

/-- Contribution of one thread to the number of holders. -/
def tokens (p : Pc) : Nat :=
  if holds p then 1 else 0

/-- The event is a `ConfigureNotify`. -/
def XEvent.isConfigure (e : XEvent) : Bool :=
  match e with
  | XEvent.ConfigureNotify _ _ => true
  | _ => false

/-- The lane discipline that `init` sets up: the intersection is 100 by 100,
cars 0 and 2 keep their rows 21 above and below its centre and do not move
vertically, cars 1 and 3 keep their columns 21 left and right of it and do not
move horizontally; the short side of a car is 18, the long side 28 to 33. -/
structure Lanes (s : World) : Prop where
  iw : s.intersection.w = 100
  ih : s.intersection.h = 100
  h0 : (s.cars 0).h = 18
  y0 : (s.cars 0).pos1 = s.intersection.pos1 - 21
  v0 : (s.cars 0).vel1 = 0
  w0lo : 28 ≤ (s.cars 0).w
  w0hi : (s.cars 0).w ≤ 33
  h2 : (s.cars 2).h = 18
  y2 : (s.cars 2).pos1 = s.intersection.pos1 + 21
  v2 : (s.cars 2).vel1 = 0
  w2lo : 28 ≤ (s.cars 2).w
  w2hi : (s.cars 2).w ≤ 33
  w1 : (s.cars 1).w = 18
  x1 : (s.cars 1).pos0 = s.intersection.pos0 - 21
  v1 : (s.cars 1).vel0 = 0
  h1lo : 28 ≤ (s.cars 1).h
  h1hi : (s.cars 1).h ≤ 33
  w3 : (s.cars 3).w = 18
  x3 : (s.cars 3).pos0 = s.intersection.pos0 + 21
  v3 : (s.cars 3).vel0 = 0
  h3lo : 28 ≤ (s.cars 3).h
  h3hi : (s.cars 3).h ≤ 33

/-! ## The whole process -/

/-- One atomic action of the process: a step of a car thread, or one of the
two things the control thread does in the loop of `main`. -/
inductive Action where
  /-- A step of the thread `traffic((void *)carnum)`. -/
  | car (carnum : Fin 4)
  /-- The body of the event loop (lines 83-87) for one pending event. -/
  | event (p : Pending)
  /-- The call `physics()` of line 90. -/
  | physics

/-- The control thread handles the pending event `p`. -/
def control_event (p : Pending) (s : Sys) : Sys :=
  { s with world := (handle p s.world).2 }

/-- The control thread runs `physics`. -/
def control_physics (s : Sys) : Sys :=
  { s with world := physics s.world }

/-- The effect of one action; `none` for a step of a thread that is blocked. -/
def act (a : Action) (s : Sys) : Option Sys :=
  match a with
  | Action.car carnum => traffic_step carnum s
  | Action.event p => some (control_event p s)
  | Action.physics => some (control_physics s)

/-- The state after a sequence of actions. -/
def run : List Action → Sys → Option Sys
  | [], s => some s
  | a :: rest, s =>
    match act a s with
    | some t => run rest t
    | none => none

/-- The sizes an X server reports for a window are not negative. -/
def XEvent.wellSized (e : XEvent) : Prop :=
  match e with
  | XEvent.ConfigureNotify width height => 0 ≤ width ∧ 0 ≤ height
  | _ => True

/-- The events of the action are events an X server delivers. -/
def Action.wellSized (a : Action) : Prop :=
  match a with
  | Action.event p => p.e.wellSized
  | _ => True

/-- How far the centre of car `i` is from the centre of the intersection, along
its lane, counted positive on the side the car comes from. -/
def dist (i : Fin 4) (s : World) : ℚ :=
  match i with
  | 0 => (s.cars 0).pos0 - s.intersection.pos0
  | 1 => s.intersection.pos1 - (s.cars 1).pos1
  | 2 => s.intersection.pos0 - (s.cars 2).pos0
  | 3 => (s.cars 3).pos1 - s.intersection.pos1

/-- The speed of car `i` along its lane, towards the intersection. -/
def approach (i : Fin 4) (s : World) : ℚ :=
  match i with
  | 0 => -(s.cars 0).vel0
  | 1 => (s.cars 1).vel1
  | 2 => (s.cars 2).vel0
  | 3 => -(s.cars 3).vel1

/-- What holds in every state the program reaches from the start of `main`:
the lane discipline, a window of non-negative size, no collision counted, no
permit in `sem` and no car past `sem_wait`, every car moving towards the
intersection at no more than 0.0006 a step, and every car at least 29 from
the centre of the intersection along its lane (at least 30 unless it stands at
`sem_wait`, where it arrived by one step). -/
structure Parked (s : Sys) : Prop where
  lanes : Lanes s.world
  xres : 0 ≤ s.world.g.xres
  yres : 0 ≤ s.world.g.yres
  count : s.world.g.ncollisions = 0
  sem : s.sem.value = 0
  out : ∀ i, holds (s.pc i) = false
  slow : ∀ i, 0 < approach i s.world ∧ approach i s.world ≤ 0.0006
  far : ∀ i, 29 ≤ dist i s.world
  fresh : ∀ i, s.pc i ≠ Pc.at_sem_wait → 30 ≤ dist i s.world

/-- The part of `Parked` that the window tests need: the lane discipline, a
window of non-negative size, and every car moving towards the intersection at
no more than 0.0006 a step. -/
def Cruise (s : World) : Prop :=
  Lanes s ∧ 0 ≤ s.g.xres ∧ 0 ≤ s.g.yres ∧
    ∀ i, 0 < approach i s ∧ approach i s ≤ 0.0006

/-! ## Concrete states used by the examples -/

/-- Two 10 by 10 boxes side by side: the right edge of the first is the left
edge of the second. -/
def touchA : Box :=
  ⟨0, 0, 0, 0, 10, 10⟩

/-- The right-hand neighbour of `touchA`. -/
def touchB : Box :=
  ⟨10, 0, 0, 0, 10, 10⟩

/-- The neighbour of `touchA` below it. -/
def touchC : Box :=
  ⟨0, 10, 0, 0, 10, 10⟩

/-- An 18 by 18 box centred at (50, 50). -/
def sameA : Box :=
  ⟨50, 50, 0, 0, 18, 18⟩

/-- A box of width 18 at x = 0. -/
def farA : Box :=
  ⟨0, 7, 0, 0, 18, 5⟩

/-- A box of width 19 at x = 20: the centres are 20 apart, (18 + 19) / 2 + 1 = 19.5. -/
def farB : Box :=
  ⟨20, -3, 0, 0, 19, 40⟩

/-- A generator that always returns 2: every speed is 3, every long side 30. -/
def seed2 : Nat → Nat :=
  fun _ => 2

/-- The layout of a 400 by 400 window. -/
def layout400 : World :=
  init seed2 (init_xwindows 400 400 (static_world seed2))

/-- A car of speed 1 that has left a 400 wide window on the left, at x = -25. -/
def leftOfWindow : World :=
  setCar (init_xwindows 400 400 (static_world seed2)) 0 ⟨-25, 0, -0.0002, 0, 18, 18⟩

/-- The state at thread creation as it would be had `main` given `sem` one
permit before creating the threads. -/
def fixed_start : Sys :=
  { main_start seed2 with sem := { value := 1, initialised := true } }

/-- The state `fixed_start` after the first step of car 0: it has moved into the
intersection and stands at `sem_wait`. -/
def queued : Sys :=
  { fixed_start with
    world := move 0 (throttle fixed_start.world),
    pc := Function.update fixed_start.pc 0 Pc.at_sem_wait }

/-- The state `queued` after `sem_wait` has returned in car 0. -/
def entered : Sys :=
  { queued with
    sem := { queued.sem with value := queued.sem.value - 1 },
    pc := Function.update queued.pc 0 Pc.in_loop }

/-- The state `main_start seed2` after the first step of car 0. -/
def main_queued : Sys :=
  { main_start seed2 with
    world := move 0 (throttle (main_start seed2).world),
    pc := Function.update (main_start seed2).pc 0 Pc.at_sem_wait }

/-- The layout of a 400 by 400 window after 380000 advances of car 0 and 340000
advances of car 1: both cars are in the middle of the intersection. -/
def crossing : World :=
  (move 1)^[340000] ((move 0)^[380000] layout400)

/-! ## Theorems: geometry -/

theorem half_eq (n : Int) : n >>> (1 : Nat) = n / 2 := by
  rw [Int.shiftRight_eq_div_pow]; norm_num

theorem half_nonneg_cast (n : Int) (h : 0 ≤ n) :
    (0 : ℚ) ≤ ((n >>> (1 : Nat) : Int) : ℚ) := by
  rw [half_eq]
  exact_mod_cast Int.ediv_nonneg h (by norm_num)

theorem half_le_cast (n : Int) : (((n >>> (1 : Nat) : Int) : ℚ)) ≤ (n : ℚ) / 2 := by
  rw [half_eq]
  have h : (2 : Int) * (n / 2) ≤ n := Int.mul_ediv_self_le (by norm_num)
  have hq : (2 : ℚ) * ((n / 2 : Int) : ℚ) ≤ (n : ℚ) := by exact_mod_cast h
  linarith

theorem half_long (n : Int) (lo : 28 ≤ n) (hi : n ≤ 33) :
    (14 : ℚ) ≤ ((n >>> (1 : Nat) : Int) : ℚ) ∧ ((n >>> (1 : Nat) : Int) : ℚ) ≤ 16 := by
  rw [half_eq]
  have h1 : (14 : Int) ≤ n / 2 := by omega
  have h2 : n / 2 ≤ (16 : Int) := by omega
  exact ⟨by exact_mod_cast h1, by exact_mod_cast h2⟩

theorem half_18 : (((18 : Int) >>> (1 : Nat) : Int) : ℚ) = 9 := by
  rw [half_eq]; norm_num

theorem half_100 : (((100 : Int) >>> (1 : Nat) : Int) : ℚ) = 50 := by
  rw [half_eq]; norm_num

theorem overlap_eq_one_iff (c i : Box) : overlap c i = 1 ↔ projections_meet c i := by
  unfold overlap projections_meet Box.left Box.right Box.top Box.bottom
  split_ifs <;> simp_all <;> intros <;> linarith

theorem overlap_eq_zero_iff (c i : Box) : overlap c i = 0 ↔ ¬ projections_meet c i := by
  unfold overlap projections_meet Box.left Box.right Box.top Box.bottom
  split_ifs <;> simp_all <;> intros <;> linarith

theorem overlap_zero_or_one (c i : Box) : overlap c i = 0 ∨ overlap c i = 1 := by
  unfold overlap
  split_ifs <;> simp

theorem overlap_ne_zero_iff (c i : Box) : overlap c i ≠ 0 ↔ overlap c i = 1 := by
  rcases overlap_zero_or_one c i with h | h <;> simp [h]

/-- C3, as stated, fails: `touchA` and `touchB` touch along a vertical edge
(the right edge of one is the left edge of the other), `touchA` and `touchC`
along a horizontal edge (the bottom edge of one is the top edge of the other);
neither pair interpenetrates strictly, and `overlap` returns 1 for both. -/
theorem overlap_touching_counterexample :
    (touchA.right = touchB.left ∧ ¬ strictly_interpenetrate touchA touchB ∧
      overlap touchA touchB = 1) ∧
    (touchA.bottom = touchC.top ∧ ¬ strictly_interpenetrate touchA touchC ∧
      overlap touchA touchC = 1) := by
  refine ⟨⟨?_, ?_, ?_⟩, ⟨?_, ?_, ?_⟩⟩
  · norm_num [touchA, touchB, Box.left, Box.right, half_eq]
  · norm_num [strictly_interpenetrate, touchA, touchB, Box.left, Box.right, half_eq]
  · norm_num [overlap, touchA, touchB, half_eq]
  · norm_num [touchA, touchC, Box.top, Box.bottom, half_eq]
  · norm_num [strictly_interpenetrate, touchA, touchC, Box.left, Box.right, Box.top,
      Box.bottom, half_eq]
  · norm_num [overlap, touchA, touchC, half_eq]

/-- C3, amended: `overlap` returns 1 exactly when the closed projections of
the two boxes meet on both axes (no far edge lies strictly before the other
box's near edge), and 0 otherwise; in particular two boxes of non-negative
size whose edges exactly touch on one axis (the right edge of one is the left
edge of the other, or the bottom edge of one is the top edge of the other), and
whose projections meet on the other axis, count as overlapping. -/
theorem overlap_closed (c i : Box) :
    (overlap c i = 1 ↔ projections_meet c i) ∧
    (overlap c i = 0 ↔ ¬ projections_meet c i) ∧
    (0 ≤ c.w → 0 ≤ i.w → c.right = i.left → i.top ≤ c.bottom → c.top ≤ i.bottom →
       overlap c i = 1) ∧
    (0 ≤ c.h → 0 ≤ i.h → c.bottom = i.top → i.left ≤ c.right → c.left ≤ i.right →
       overlap c i = 1) := by
  refine ⟨overlap_eq_one_iff c i, overlap_eq_zero_iff c i, ?_, ?_⟩
  · intro hc hi h1 h2 h3
    rw [overlap_eq_one_iff]
    have hcq := half_nonneg_cast c.w hc
    have hiq := half_nonneg_cast i.w hi
    refine ⟨le_of_eq h1.symm, ?_, h2, h3⟩
    unfold Box.left Box.right at *
    linarith
  · intro hc hi h1 h2 h3
    rw [overlap_eq_one_iff]
    have hcq := half_nonneg_cast c.h hc
    have hiq := half_nonneg_cast i.h hi
    refine ⟨h2, h3, le_of_eq h1.symm, ?_⟩
    unfold Box.top Box.bottom at *
    linarith

/-- C4: two boxes of non-negative size with the same centre overlap, and two
boxes of non-negative size whose centres are at least `(w1 + w2) / 2 + 1`
apart on the x axis do not, whatever their `y` and `h`. -/
theorem overlap_same_centre_and_far (c i : Box)
    (hcw : 0 ≤ c.w) (hch : 0 ≤ c.h) (hiw : 0 ≤ i.w) (hih : 0 ≤ i.h) :
    (c.pos0 = i.pos0 → c.pos1 = i.pos1 → overlap c i = 1) ∧
    ((((c.w + i.w : Int) : ℚ) / 2 + 1 ≤ |c.pos0 - i.pos0|) → overlap c i = 0) := by
  have h1 := half_nonneg_cast c.w hcw
  have h2 := half_nonneg_cast c.h hch
  have h3 := half_nonneg_cast i.w hiw
  have h4 := half_nonneg_cast i.h hih
  constructor
  · intro hx hy
    rw [overlap_eq_one_iff]
    unfold projections_meet Box.left Box.right Box.top Box.bottom
    rw [hx, hy]
    refine ⟨?_, ?_, ?_, ?_⟩ <;> linarith
  · intro hfar
    rw [overlap_eq_zero_iff]
    unfold projections_meet Box.left Box.right Box.top Box.bottom
    have h5 := half_le_cast c.w
    have h6 := half_le_cast i.w
    push_cast at hfar
    intro hmeet
    rcases le_abs.mp hfar with h | h
    · linarith [hmeet.2.1]
    · linarith [hmeet.1]

/-- C4 at concrete boxes: two 18 by 18 boxes centred at (50, 50) overlap; boxes
of widths 18 and 19 whose centres are 20 apart do not. -/
theorem overlap_same_centre_and_far_witness :
    overlap sameA sameA = 1 ∧ overlap farA farB = 0 :=
  ⟨(overlap_same_centre_and_far sameA sameA (by decide) (by decide) (by decide) (by decide)).1
      rfl rfl,
   (overlap_same_centre_and_far farA farB (by decide) (by decide) (by decide) (by decide)).2
      (by norm_num [farA, farB])⟩

/-! ## Theorems: the collision pass -/

theorem physics_eq_foldl (s : World) :
    physics s = pairs.foldl (fun s p => physics_pair p.1 p.2 s)
      { s with g := { s.g with collision_flag := 0 } } := rfl

theorem physics_pair_cars (i j : Fin 4) (s : World) : (physics_pair i j s).cars = s.cars := by
  unfold physics_pair; split_ifs <;> rfl

theorem physics_pair_ncollisions (i j : Fin 4) (s : World) :
    (physics_pair i j s).g.ncollisions =
      s.g.ncollisions + (if collide s.cars (i, j) then 1 else 0) := by
  unfold physics_pair collide
  by_cases hij : i = j
  · simp [hij]
  · by_cases ho : overlap (s.cars i) (s.cars j) = 1
    · simp [hij, ho]
    · have ho2 : ¬ overlap (s.cars i) (s.cars j) ≠ 0 := by rwa [overlap_ne_zero_iff]
      simp [hij, ho, ho2]

theorem physics_pair_flag (i j : Fin 4) (s : World) :
    (physics_pair i j s).g.collision_flag =
      (if collide s.cars (i, j) then 1 else s.g.collision_flag) := by
  unfold physics_pair collide
  by_cases hij : i = j
  · simp [hij]
  · by_cases ho : overlap (s.cars i) (s.cars j) = 1
    · simp [hij, ho]
    · have ho2 : ¬ overlap (s.cars i) (s.cars j) ≠ 0 := by rwa [overlap_ne_zero_iff]
      simp [hij, ho, ho2]

/-- The loop of `physics` over any list of pairs: the cars are not written, the
count grows by the number of colliding pairs of the list, and the flag is set
when the list has a colliding pair. -/
theorem foldl_pairs (l : List (Fin 4 × Fin 4)) (s : World) :
    (l.foldl (fun s p => physics_pair p.1 p.2 s) s).cars = s.cars ∧
    (l.foldl (fun s p => physics_pair p.1 p.2 s) s).g.ncollisions =
      s.g.ncollisions + ((l.filter (fun p => decide (collide s.cars p))).length : Int) ∧
    ((l.foldl (fun s p => physics_pair p.1 p.2 s) s).g.collision_flag =
      if ∃ p ∈ l, collide s.cars p then 1 else s.g.collision_flag) := by
  induction l generalizing s with
  | nil => simp
  | cons p l ih =>
    obtain ⟨h1, h2, h3⟩ := ih (physics_pair p.1 p.2 s)
    simp only [List.foldl_cons]
    rw [physics_pair_cars] at h1 h2 h3
    refine ⟨h1, ?_, ?_⟩
    · rw [h2, physics_pair_ncollisions]
      by_cases hp : collide s.cars p
      · simp [List.filter_cons, hp]; ring
      · simp [List.filter_cons, hp]
    · rw [h3, physics_pair_flag]
      by_cases hp : collide s.cars p
      · simp [hp]
      · simp [hp]

theorem card_collide (cars : Fin 4 → Box) :
    ((Finset.univ : Finset (Fin 4 × Fin 4)).filter (collide cars)).card =
      (pairs.filter (fun p => decide (collide cars p))).length := by
  have hu : (Finset.univ : Finset (Fin 4 × Fin 4)) = pairs.toFinset := by decide
  have hf : (pairs.toFinset).filter (collide cars) =
      (pairs.filter (fun p => decide (collide cars p))).toFinset := by
    ext p; simp [List.mem_filter]
  rw [hu, hf, List.toFinset_card_of_nodup]
  exact List.Nodup.filter _ (by decide)

theorem physics_count_eq (s : World) :
    (physics s).g.ncollisions = s.g.ncollisions +
      (((Finset.univ : Finset (Fin 4 × Fin 4)).filter (collide s.cars)).card : Int) := by
  rw [physics_eq_foldl, (foldl_pairs pairs _).2.1, card_collide]

theorem physics_ncollisions_le (s : World) : s.g.ncollisions ≤ (physics s).g.ncollisions := by
  rw [physics_count_eq]
  have : (0 : Int) ≤
      (((Finset.univ : Finset (Fin 4 × Fin 4)).filter (collide s.cars)).card : Int) :=
    Int.natCast_nonneg _
  linarith

/-- C5: whatever the cars and the earlier value of the flag, after one pass
of `physics` the flag `g.collision_flag` is 1 exactly when some pair of
distinct cars overlaps, and 0 exactly when none does; so a flag left at 1 does
not survive a pass that finds no overlap. -/
theorem physics_flag_iff (s : World) :
    ((physics s).g.collision_flag = 1 ↔
      ∃ i j : Fin 4, i ≠ j ∧ overlap (s.cars i) (s.cars j) = 1) ∧
    ((physics s).g.collision_flag = 0 ↔
      ¬ ∃ i j : Fin 4, i ≠ j ∧ overlap (s.cars i) (s.cars j) = 1) := by
  have hiff : (∃ p ∈ pairs, collide s.cars p) ↔
      ∃ i j : Fin 4, i ≠ j ∧ overlap (s.cars i) (s.cars j) = 1 := by
    constructor
    · rintro ⟨p, -, hp⟩
      exact ⟨p.1, p.2, hp⟩
    · rintro ⟨i, j, hij, ho⟩
      exact ⟨(i, j), by fin_cases i <;> fin_cases j <;> simp [pairs], hij, ho⟩
  rw [physics_eq_foldl, (foldl_pairs pairs _).2.2, ← hiff]
  simp only []
  by_cases hc : ∃ p ∈ pairs, collide s.cars p
  · rw [if_pos hc]; simp [hc]
  · rw [if_neg hc]; simp [hc]

/-- C6: one pass of `physics` adds to `g.ncollisions` exactly the number of
ordered pairs `(i, j)` of distinct cars for which `overlap` returns 1; the
count is left unchanged when no pair overlaps. -/
theorem physics_count (s : World) :
    (physics s).g.ncollisions = s.g.ncollisions +
      (((Finset.univ : Finset (Fin 4 × Fin 4)).filter
        (fun p => p.1 ≠ p.2 ∧ overlap (s.cars p.1) (s.cars p.2) = 1)).card : Int) ∧
    ((∀ i j : Fin 4, i ≠ j → overlap (s.cars i) (s.cars j) ≠ 1) →
      (physics s).g.ncollisions = s.g.ncollisions) := by
  have hcount := physics_count_eq s
  have hcard := card_collide s.cars
  unfold collide at hcount hcard
  refine ⟨hcount, ?_⟩
  intro hnone
  have hempty : (Finset.univ : Finset (Fin 4 × Fin 4)).filter
      (fun p => p.1 ≠ p.2 ∧ overlap (s.cars p.1) (s.cars p.2) = 1) = ∅ := by
    apply Finset.filter_false_of_mem
    rintro p - ⟨hne, ho⟩
    exact hnone p.1 p.2 hne ho
  rw [hcount, hempty]
  simp

/-! ## Theorems: `init` -/

theorem stretch_bounds (r : Nat) : 10 ≤ stretch r ∧ stretch r ≤ 15 := by
  unfold stretch
  have : r % 6 < 6 := Nat.mod_lt _ (by norm_num)
  omega

theorem speed_cases (r : Nat) : speed r = 1 ∨ speed r = 2 ∨ speed r = 3 := by
  unfold speed
  have : r % 3 < 3 := Nat.mod_lt _ (by norm_num)
  omega

theorem speed_pos (r : Nat) : (0 : ℚ) < ((speed r : Int) : ℚ) * 0.0002 := by
  have h : (0 : ℚ) < ((speed r : Int) : ℚ) := by
    have : (0 : Int) < speed r := by rcases speed_cases r with h | h | h <;> omega
    exact_mod_cast this
  positivity

theorem speed_neg (r : Nat) : ((-(speed r) : Int) : ℚ) * 0.0002 < 0 := by
  have := speed_pos r
  push_cast
  linarith

theorem init_intersection (seed : Nat → Nat) (s : World) :
    (init seed s).intersection =
      { pos0 := ((Int.tdiv s.g.xres 2 : Int) : ℚ), pos1 := ((Int.tdiv s.g.yres 2 : Int) : ℚ),
        vel0 := 0, vel1 := 0, w := 100, h := 100 } := by
  simp [init, rand, setCar, Function.update]

theorem init_car0 (seed : Nat → Nat) (s : World) :
    (init seed s).cars 0 =
      { pos0 := ((s.g.xres + 30 : Int) : ℚ), pos1 := ((Int.tdiv s.g.yres 2 : Int) : ℚ) - 21,
        vel0 := ((-(speed (seed 1)) : Int) : ℚ) * 0.0002, vel1 := 0,
        w := 18 + stretch (seed 0), h := 18 } := by
  simp [init, rand, setCar, Function.update]

theorem init_car1 (seed : Nat → Nat) (s : World) :
    (init seed s).cars 1 =
      { pos0 := ((Int.tdiv s.g.xres 2 : Int) : ℚ) - 21, pos1 := -30,
        vel0 := 0, vel1 := ((speed (seed 3) : Int) : ℚ) * 0.0002,
        w := 18, h := 18 + stretch (seed 2) } := by
  simp [init, rand, setCar, Function.update]

theorem init_car2 (seed : Nat → Nat) (s : World) :
    (init seed s).cars 2 =
      { pos0 := -40, pos1 := ((Int.tdiv s.g.yres 2 : Int) : ℚ) + 21,
        vel0 := ((speed (seed 5) : Int) : ℚ) * 0.0002, vel1 := 0,
        w := 18 + stretch (seed 4), h := 18 } := by
  simp [init, rand, setCar, Function.update]

theorem init_car3 (seed : Nat → Nat) (s : World) :
    (init seed s).cars 3 =
      { pos0 := ((Int.tdiv s.g.xres 2 : Int) : ℚ) + 21, pos1 := ((s.g.yres + 30 : Int) : ℚ),
        vel0 := 0, vel1 := ((-(speed (seed 7)) : Int) : ℚ) * 0.0002,
        w := 18, h := 18 + stretch (seed 6) } := by
  simp [init, rand, setCar, Function.update]

theorem init_g (seed : Nat → Nat) (s : World) :
    (init seed s).g =
      { s.g with collision_flag := 0, show_collisions := 0, ncollisions := 0,
                 slow_mode := 0 } := by
  simp [init, rand, setCar]

theorem init_lanes (seed : Nat → Nat) (s : World) : Lanes (init seed s) := by
  have b0 := stretch_bounds (seed 0)
  have b2 := stretch_bounds (seed 2)
  have b4 := stretch_bounds (seed 4)
  have b6 := stretch_bounds (seed 6)
  constructor <;>
    simp only [init_intersection, init_car0, init_car1, init_car2, init_car3] <;>
    first | rfl | omega

theorem tdiv_two (x : Int) (h : 0 ≤ x) : 0 ≤ Int.tdiv x 2 ∧ Int.tdiv x 2 ≤ x := by
  rw [Int.tdiv_eq_ediv h (by norm_num)]
  omega

/-- In the layout `init` computes for a window of non-negative size no two
cars overlap. -/
theorem init_no_collision (seed : Nat → Nat) (s : World) (hx : 0 ≤ s.g.xres)
    (hy : 0 ≤ s.g.yres) (i j : Fin 4) (hij : i ≠ j) :
    overlap ((init seed s).cars i) ((init seed s).cars j) = 0 := by
  obtain ⟨cx0, cx1⟩ := tdiv_two _ hx
  obtain ⟨cy0, cy1⟩ := tdiv_two _ hy
  have cx0q : (0 : ℚ) ≤ ((Int.tdiv s.g.xres 2 : Int) : ℚ) := by exact_mod_cast cx0
  have cx1q : ((Int.tdiv s.g.xres 2 : Int) : ℚ) ≤ (s.g.xres : ℚ) := by exact_mod_cast cx1
  have cy0q : (0 : ℚ) ≤ ((Int.tdiv s.g.yres 2 : Int) : ℚ) := by exact_mod_cast cy0
  have cy1q : ((Int.tdiv s.g.yres 2 : Int) : ℚ) ≤ (s.g.yres : ℚ) := by exact_mod_cast cy1
  have L := init_lanes seed s
  obtain ⟨p0, q0⟩ := half_long _ L.w0lo L.w0hi
  obtain ⟨p2, q2⟩ := half_long _ L.w2lo L.w2hi
  obtain ⟨p1, q1⟩ := half_long _ L.h1lo L.h1hi
  obtain ⟨p3, q3⟩ := half_long _ L.h3lo L.h3hi
  have e18 := half_18
  rw [overlap_eq_zero_iff]
  simp only [projections_meet, Box.left, Box.right, Box.top, Box.bottom]
  rw [init_car0] at p0 q0
  rw [init_car1] at p1 q1
  rw [init_car2] at p2 q2
  rw [init_car3] at p3 q3
  simp only [] at p0 q0 p1 q1 p2 q2 p3 q3
  fin_cases i <;> fin_cases j <;> simp only [ne_eq, not_true_eq_false] at hij <;>
    simp only [Fin.zero_eta, Fin.mk_one, Fin.reduceFinMk, init_car0, init_car1, init_car2,
      init_car3, e18] <;>
    push_cast <;>
    rintro ⟨o1, o2, o3, o4⟩ <;> linarith

theorem init_no_collide (seed : Nat → Nat) (s : World) (hx : 0 ≤ s.g.xres)
    (hy : 0 ≤ s.g.yres) :
    (Finset.univ : Finset (Fin 4 × Fin 4)).filter (collide (init seed s).cars) = ∅ := by
  apply Finset.filter_false_of_mem
  rintro p - ⟨hne, ho⟩
  rw [init_no_collision seed s hx hy p.1 p.2 hne] at ho
  exact absurd ho (by norm_num)

/-! ## Theorems: the main loop -/

theorem handle_ncollisions (p : Pending) (s : World) (h : p.e.isConfigure = false) :
    (handle p s).2.g.ncollisions = s.g.ncollisions := by
  obtain ⟨seed, e⟩ := p
  cases e <;> simp [XEvent.isConfigure] at h <;>
    simp [handle, check_resize, check_mouse, check_keys] <;>
    split_ifs <;> rfl

theorem events_ncollisions (queue : List Pending) (r : Int × World)
    (h : ∀ p ∈ queue, p.e.isConfigure = false) :
    (queue.foldl (fun (r : Int × World) p => handle p r.2) r).2.g.ncollisions =
      r.2.g.ncollisions := by
  induction queue generalizing r with
  | nil => rfl
  | cons p queue ih =>
    rw [List.foldl_cons, ih _ (fun q hq => h q (List.mem_cons_of_mem _ hq)),
      handle_ncollisions _ _ (h p (List.mem_cons_self _ _))]

/-- Over a frame of the main loop in which no `ConfigureNotify` event is
handled, `g.ncollisions` does not decrease, whatever the state. -/
theorem tick_count_mono (queue : List Pending) (s : World)
    (h : ∀ p ∈ queue, p.e.isConfigure = false) :
    s.g.ncollisions ≤ (tick queue s).2.g.ncollisions := by
  unfold tick
  have := events_ncollisions queue (0, s) h
  simp only [] at this ⊢
  rw [← this]
  exact physics_ncollisions_le _

/-! ## Theorems: `fib` -/

/-- The function `fib` returns on every argument from 1 up, in particular on
the arguments 2 to 6 and 19 that `traffic` passes. -/
theorem fib_returns (fuel : Nat) (n : Int) (h1 : 1 ≤ n) (h2 : n ≤ fuel) :
    ∃ v : Int, fib fuel n = some v := by
  induction fuel generalizing n with
  | zero => omega
  | succ fuel ih =>
    unfold fib
    by_cases hn : n = 1 ∨ n = 2
    · exact ⟨1, by rw [if_pos hn]⟩
    · rw [if_neg hn]
      have hn3 : 3 ≤ n := by omega
      obtain ⟨a, ha⟩ := ih (n - 1) (by omega) (by push_cast at h2; omega)
      obtain ⟨b, hb⟩ := ih (n - 2) (by omega) (by push_cast at h2; omega)
      exact ⟨a + b, by rw [ha, hb]⟩

/-! ## Theorems: the window tests -/

theorem wrap_left_eq (carnum : Fin 4) (s : World) :
    wrap_left carnum s =
      if (s.cars carnum).pos0 < -20 ∧ (s.cars carnum).vel0 < 0 then
        { s with
          cars := Function.update s.cars carnum
            { s.cars carnum with
              pos0 := (s.cars carnum).pos0 + ((s.g.xres : ℚ) + 40),
              vel0 := ((-(speed (s.rng 0)) : Int) : ℚ) * 0.0002 },
          rng := fun k => s.rng (k + 1) }
      else s := by
  unfold wrap_left
  split_ifs
  · simp only [rand, setCar, Function.update_same, Function.update_idem]
  · rfl

theorem wrap_top_eq (carnum : Fin 4) (s : World) :
    wrap_top carnum s =
      if (s.cars carnum).pos1 < -20 ∧ (s.cars carnum).vel1 < 0 then
        { s with
          cars := Function.update s.cars carnum
            { s.cars carnum with
              pos1 := (s.cars carnum).pos1 + ((s.g.yres : ℚ) + 40),
              vel1 := ((-(speed (s.rng 0)) : Int) : ℚ) * 0.0002 },
          rng := fun k => s.rng (k + 1) }
      else s := by
  unfold wrap_top
  split_ifs
  · simp only [rand, setCar, Function.update_same, Function.update_idem]
  · rfl

theorem wrap_right_eq (carnum : Fin 4) (s : World) :
    wrap_right carnum s =
      if (s.cars carnum).pos0 > ((s.g.xres + 20 : Int) : ℚ) ∧ (s.cars carnum).vel0 > 0 then
        { s with
          cars := Function.update s.cars carnum
            { s.cars carnum with
              pos0 := (s.cars carnum).pos0 - ((s.g.xres : ℚ) + 40),
              vel0 := ((speed (s.rng 0) : Int) : ℚ) * 0.0002 },
          rng := fun k => s.rng (k + 1) }
      else s := by
  unfold wrap_right
  split_ifs
  · simp only [rand, setCar, Function.update_same, Function.update_idem]
  · rfl

theorem wrap_bottom_eq (carnum : Fin 4) (s : World) :
    wrap_bottom carnum s =
      if (s.cars carnum).pos1 > ((s.g.yres + 20 : Int) : ℚ) ∧ (s.cars carnum).vel1 > 0 then
        { s with
          cars := Function.update s.cars carnum
            { s.cars carnum with
              pos1 := (s.cars carnum).pos1 - ((s.g.yres : ℚ) + 40),
              vel1 := ((speed (s.rng 0) : Int) : ℚ) * 0.0002 },
          rng := fun k => s.rng (k + 1) }
      else s := by
  unfold wrap_bottom
  split_ifs
  · simp only [rand, setCar, Function.update_same, Function.update_idem]
  · rfl

theorem wrap_left_frame (carnum : Fin 4) (s : World) :
    (wrap_left carnum s).g = s.g ∧
    ((wrap_left carnum s).cars carnum).pos1 = (s.cars carnum).pos1 ∧
    ((wrap_left carnum s).cars carnum).vel1 = (s.cars carnum).vel1 := by
  rw [wrap_left_eq]; split_ifs <;> simp

theorem wrap_right_frame (carnum : Fin 4) (s : World) :
    (wrap_right carnum s).g = s.g ∧
    ((wrap_right carnum s).cars carnum).pos1 = (s.cars carnum).pos1 ∧
    ((wrap_right carnum s).cars carnum).vel1 = (s.cars carnum).vel1 := by
  rw [wrap_right_eq]; split_ifs <;> simp

theorem wrap_top_frame (carnum : Fin 4) (s : World) :
    (wrap_top carnum s).g = s.g ∧
    ((wrap_top carnum s).cars carnum).pos0 = (s.cars carnum).pos0 ∧
    ((wrap_top carnum s).cars carnum).vel0 = (s.cars carnum).vel0 := by
  rw [wrap_top_eq]; split_ifs <;> simp

theorem wrap_bottom_frame (carnum : Fin 4) (s : World) :
    (wrap_bottom carnum s).g = s.g ∧
    ((wrap_bottom carnum s).cars carnum).pos0 = (s.cars carnum).pos0 ∧
    ((wrap_bottom carnum s).cars carnum).vel0 = (s.cars carnum).vel0 := by
  rw [wrap_bottom_eq]; split_ifs <;> simp

theorem wrap_left_fires (carnum : Fin 4) (s : World)
    (hp : (s.cars carnum).pos0 < -20) (hv : (s.cars carnum).vel0 < 0) :
    ((wrap_left carnum s).cars carnum).pos0 = (s.cars carnum).pos0 + ((s.g.xres : ℚ) + 40) ∧
    ((wrap_left carnum s).cars carnum).vel0 =
      ((-(speed (s.rng 0)) : Int) : ℚ) * 0.0002 := by
  rw [wrap_left_eq, if_pos ⟨hp, hv⟩]; simp

theorem wrap_top_fires (carnum : Fin 4) (s : World)
    (hp : (s.cars carnum).pos1 < -20) (hv : (s.cars carnum).vel1 < 0) :
    ((wrap_top carnum s).cars carnum).pos1 = (s.cars carnum).pos1 + ((s.g.yres : ℚ) + 40) ∧
    ((wrap_top carnum s).cars carnum).vel1 =
      ((-(speed (s.rng 0)) : Int) : ℚ) * 0.0002 := by
  rw [wrap_top_eq, if_pos ⟨hp, hv⟩]; simp

theorem wrap_right_fires (carnum : Fin 4) (s : World)
    (hp : (s.cars carnum).pos0 > ((s.g.xres + 20 : Int) : ℚ)) (hv : (s.cars carnum).vel0 > 0) :
    ((wrap_right carnum s).cars carnum).pos0 = (s.cars carnum).pos0 - ((s.g.xres : ℚ) + 40) ∧
    ((wrap_right carnum s).cars carnum).vel0 =
      ((speed (s.rng 0) : Int) : ℚ) * 0.0002 := by
  rw [wrap_right_eq, if_pos ⟨hp, hv⟩]; simp

theorem wrap_bottom_fires (carnum : Fin 4) (s : World)
    (hp : (s.cars carnum).pos1 > ((s.g.yres + 20 : Int) : ℚ)) (hv : (s.cars carnum).vel1 > 0) :
    ((wrap_bottom carnum s).cars carnum).pos1 = (s.cars carnum).pos1 - ((s.g.yres : ℚ) + 40) ∧
    ((wrap_bottom carnum s).cars carnum).vel1 =
      ((speed (s.rng 0) : Int) : ℚ) * 0.0002 := by
  rw [wrap_bottom_eq, if_pos ⟨hp, hv⟩]; simp

theorem wrap_left_skips (carnum : Fin 4) (s : World) (hv : 0 ≤ (s.cars carnum).vel0) :
    wrap_left carnum s = s := by
  rw [wrap_left_eq, if_neg]; intro h; linarith [h.2]

theorem wrap_top_skips (carnum : Fin 4) (s : World) (hv : 0 ≤ (s.cars carnum).vel1) :
    wrap_top carnum s = s := by
  rw [wrap_top_eq, if_neg]; intro h; linarith [h.2]

theorem wrap_right_skips (carnum : Fin 4) (s : World) (hv : (s.cars carnum).vel0 ≤ 0) :
    wrap_right carnum s = s := by
  rw [wrap_right_eq, if_neg]; intro h; linarith [h.2]

theorem wrap_bottom_skips (carnum : Fin 4) (s : World) (hv : (s.cars carnum).vel1 ≤ 0) :
    wrap_bottom carnum s = s := by
  rw [wrap_bottom_eq, if_neg]; intro h; linarith [h.2]

/-- C8: the window tests of `traffic`.  A car left of x = -20 with negative
x-velocity is moved to `x + xres + 40` and gets x-velocity `-k * 0.0002` with
`k` in {1, 2, 3}, whatever `rand` returns; a car above y = -20 with negative
y-velocity is moved to `y + yres + 40` and gets y-velocity `-k * 0.0002`; a car
right of `xres + 20` with positive x-velocity is moved to `x - (xres + 40)` and
gets x-velocity `k * 0.0002`; a car below `yres + 20` with positive y-velocity is
moved to `y - (yres + 40)` and gets y-velocity `k * 0.0002`. -/
theorem wrap_spec (carnum : Fin 4) (s : World) :
    ((s.cars carnum).pos0 < -20 → (s.cars carnum).vel0 < 0 →
      ((wrap carnum s).cars carnum).pos0 = (s.cars carnum).pos0 + (s.g.xres : ℚ) + 40 ∧
      ∃ k : Int, (k = 1 ∨ k = 2 ∨ k = 3) ∧
        ((wrap carnum s).cars carnum).vel0 = -(k : ℚ) * 0.0002) ∧
    ((s.cars carnum).pos1 < -20 → (s.cars carnum).vel1 < 0 →
      ((wrap carnum s).cars carnum).pos1 = (s.cars carnum).pos1 + (s.g.yres : ℚ) + 40 ∧
      ∃ k : Int, (k = 1 ∨ k = 2 ∨ k = 3) ∧
        ((wrap carnum s).cars carnum).vel1 = -(k : ℚ) * 0.0002) ∧
    ((s.cars carnum).pos0 > (s.g.xres : ℚ) + 20 → (s.cars carnum).vel0 > 0 →
      ((wrap carnum s).cars carnum).pos0 = (s.cars carnum).pos0 - ((s.g.xres : ℚ) + 40) ∧
      ∃ k : Int, (k = 1 ∨ k = 2 ∨ k = 3) ∧
        ((wrap carnum s).cars carnum).vel0 = (k : ℚ) * 0.0002) ∧
    ((s.cars carnum).pos1 > (s.g.yres : ℚ) + 20 → (s.cars carnum).vel1 > 0 →
      ((wrap carnum s).cars carnum).pos1 = (s.cars carnum).pos1 - ((s.g.yres : ℚ) + 40) ∧
      ∃ k : Int, (k = 1 ∨ k = 2 ∨ k = 3) ∧
        ((wrap carnum s).cars carnum).vel1 = (k : ℚ) * 0.0002) := by
  refine ⟨?_, ?_, ?_, ?_⟩
  · intro hp hv
    obtain ⟨h1, h2⟩ := wrap_left_fires carnum s hp hv
    obtain ⟨-, t1, t2⟩ := wrap_top_frame carnum (wrap_left carnum s)
    have hneg : ((wrap_top carnum (wrap_left carnum s)).cars carnum).vel0 ≤ 0 := by
      rw [t2, h2]; exact le_of_lt (speed_neg _)
    obtain ⟨-, b1, b2⟩ := wrap_bottom_frame carnum
      (wrap_right carnum (wrap_top carnum (wrap_left carnum s)))
    unfold wrap
    rw [b1, b2, wrap_right_skips _ _ hneg, t1, t2, h1, h2]
    refine ⟨by ring, ?_⟩
    exact ⟨speed (s.rng 0), speed_cases _, by push_cast; ring⟩
  · intro hp hv
    obtain ⟨l0, l1, l2⟩ := wrap_left_frame carnum s
    obtain ⟨h1, h2⟩ := wrap_top_fires carnum (wrap_left carnum s) (by rw [l1]; exact hp)
      (by rw [l2]; exact hv)
    obtain ⟨-, r1, r2⟩ := wrap_right_frame carnum (wrap_top carnum (wrap_left carnum s))
    have hneg : ((wrap_right carnum (wrap_top carnum (wrap_left carnum s))).cars carnum).vel1
        ≤ 0 := by
      rw [r2, h2]; exact le_of_lt (speed_neg _)
    unfold wrap
    rw [wrap_bottom_skips _ _ hneg, r1, r2, h1, h2, l1, l0]
    refine ⟨by ring, ?_⟩
    exact ⟨speed ((wrap_left carnum s).rng 0), speed_cases _, by push_cast; ring⟩
  · intro hp hv
    have hl := wrap_left_skips carnum s (le_of_lt hv)
    obtain ⟨t0, t1, t2⟩ := wrap_top_frame carnum s
    obtain ⟨h1, h2⟩ := wrap_right_fires carnum (wrap_top carnum s)
      (by rw [t1, t0]; push_cast; exact hp) (by rw [t2]; exact hv)
    obtain ⟨-, b1, b2⟩ := wrap_bottom_frame carnum (wrap_right carnum (wrap_top carnum s))
    unfold wrap
    rw [hl, b1, b2, h1, h2, t1, t0]
    refine ⟨rfl, ?_⟩
    exact ⟨speed ((wrap_top carnum s).rng 0), speed_cases _, rfl⟩
  · intro hp hv
    obtain ⟨l0, l1, l2⟩ := wrap_left_frame carnum s
    have ht := wrap_top_skips carnum (wrap_left carnum s) (by rw [l2]; exact le_of_lt hv)
    obtain ⟨r0, r1, r2⟩ := wrap_right_frame carnum (wrap_left carnum s)
    obtain ⟨h1, h2⟩ := wrap_bottom_fires carnum (wrap_right carnum (wrap_left carnum s))
      (by rw [r1, r0, l1, l0]; push_cast; exact hp) (by rw [r2, l2]; exact hv)
    unfold wrap
    rw [ht, h1, h2, r1, r0, l1, l0]
    refine ⟨rfl, ?_⟩
    exact ⟨speed ((wrap_right carnum (wrap_left carnum s)).rng 0), speed_cases _, rfl⟩

/-- C8 at a concrete car: at x = -25 in a window of width 400, moving left, the
car is moved to x = 415 and keeps moving left at one of the three speeds. -/
theorem wrap_spec_witness :
    ((wrap 0 leftOfWindow).cars 0).pos0 = 415 ∧
    ∃ k : Int, (k = 1 ∨ k = 2 ∨ k = 3) ∧
      ((wrap 0 leftOfWindow).cars 0).vel0 = -(k : ℚ) * 0.0002 := by
  have hp : (leftOfWindow.cars 0).pos0 < -20 := by
    norm_num [leftOfWindow, setCar]
  have hv : (leftOfWindow.cars 0).vel0 < 0 := by
    norm_num [leftOfWindow, setCar]
  obtain ⟨h1, h2⟩ := (wrap_spec 0 leftOfWindow).1 hp hv
  refine ⟨?_, h2⟩
  rw [h1]
  norm_num [leftOfWindow, setCar, init_xwindows, static_world]

/-! ## Theorems: the semaphore -/

theorem holders_eq (s : Sys) :
    holders s = tokens (s.pc 0) + tokens (s.pc 1) + tokens (s.pc 2) + tokens (s.pc 3) := by
  simp only [holders, tokens, List.filter]
  cases holds (s.pc 0) <;> cases holds (s.pc 1) <;> cases holds (s.pc 2) <;>
    cases holds (s.pc 3) <;> rfl

theorem holders_update (s : Sys) (carnum : Fin 4) (q : Pc) (w : World) (m : Sem) :
    holders { world := w, sem := m, pc := Function.update s.pc carnum q } + tokens (s.pc carnum) =
      holders s + tokens q := by
  rw [holders_eq, holders_eq]
  fin_cases carnum <;> simp [Function.update] <;> omega

/-- The semaphore invariant: permits plus holders is constant along a step. -/
theorem step_permits (s t : Sys) (h : Step s t) :
    t.sem.value + holders t = s.sem.value + holders s := by
  obtain ⟨carnum, hstep⟩ := h
  unfold traffic_step at hstep
  cases hpc : s.pc carnum <;> rw [hpc] at hstep <;> simp only [] at hstep
  · split_ifs at hstep
    · injection hstep with hstep
      subst hstep
      have := holders_update s carnum Pc.at_sem_wait (move carnum (throttle s.world)) s.sem
      rw [hpc] at this
      simpa [tokens, holds] using this
    · injection hstep with hstep
      subst hstep
      have := holders_update s carnum Pc.at_wrap (move carnum (throttle s.world)) s.sem
      rw [hpc] at this
      simpa [tokens, holds] using this
  · split_ifs at hstep with hv
    injection hstep with hstep
    subst hstep
    have := holders_update s carnum Pc.in_loop s.world { s.sem with value := s.sem.value - 1 }
    rw [hpc] at this
    simp [tokens, holds] at this
    simp only []
    omega
  · split_ifs at hstep
    · injection hstep with hstep
      subst hstep
      rfl
    · injection hstep with hstep
      subst hstep
      have := holders_update s carnum Pc.at_sem_post s.world s.sem
      rw [hpc] at this
      simpa [tokens, holds] using this
  · injection hstep with hstep
    subst hstep
    have := holders_update s carnum Pc.at_wrap s.world { s.sem with value := s.sem.value + 1 }
    rw [hpc] at this
    simp [tokens, holds] at this
    simp only []
    omega
  · injection hstep with hstep
    subst hstep
    have := holders_update s carnum Pc.top (wrap carnum s.world) s.sem
    rw [hpc] at this
    simpa [tokens, holds] using this

theorem reachable_permits (s t : Sys) (h : Reachable s t) :
    t.sem.value + holders t = s.sem.value + holders s := by
  induction h with
  | start => rfl
  | step _ hs ih => rw [step_permits _ _ hs, ih]

/-- C1: mutual exclusion.  From a state in which no car holds the token and
`sem` has at most one permit (the zero-filled `sem` the program runs with, or a
`sem` set to one permit), every state the four `traffic` threads reach, in any
interleaving, has at most one car between its `sem_wait` and its `sem_post`. -/
theorem mutual_exclusion (s t : Sys) (hfree : holders s = 0) (hone : s.sem.value ≤ 1)
    (h : Reachable s t) : holders t ≤ 1 := by
  have := reachable_permits s t h
  omega

theorem first_move_overlaps :
    overlap ((move 0 (throttle (main_start seed2).world)).cars 0)
      (move 0 (throttle (main_start seed2).world)).intersection = 1 := by
  rw [overlap_eq_one_iff]
  simp only [projections_meet, Box.left, Box.right, Box.top, Box.bottom, move, throttle, rand,
    setCar, main_start, init_xwindows, Function.update_same, init_car0, init_intersection,
    static_world, half_eq, speed, stretch, seed2]
  norm_num

theorem fixed_start_step : traffic_step 0 fixed_start = some queued := by
  have h := first_move_overlaps
  have hne : overlap ((move 0 (throttle fixed_start.world)).cars 0)
      (move 0 (throttle fixed_start.world)).intersection ≠ 0 := by
    rw [overlap_ne_zero_iff]; exact h
  unfold traffic_step
  have hpc : fixed_start.pc 0 = Pc.top := rfl
  rw [hpc]
  simp only []
  rw [if_pos hne]
  rfl

theorem queued_step : traffic_step 0 queued = some entered := by
  unfold traffic_step
  have hpc : queued.pc 0 = Pc.at_sem_wait := by simp [queued]
  rw [hpc]
  simp only []
  rw [if_pos (by simp [queued, fixed_start])]
  rfl

theorem main_start_step : traffic_step 0 (main_start seed2) = some main_queued := by
  have h := first_move_overlaps
  have hne : overlap ((move 0 (throttle (main_start seed2).world)).cars 0)
      (move 0 (throttle (main_start seed2).world)).intersection ≠ 0 := by
    rw [overlap_ne_zero_iff]; exact h
  unfold traffic_step
  have hpc : (main_start seed2).pc 0 = Pc.top := rfl
  rw [hpc]
  simp only []
  rw [if_pos hne]
  rfl

theorem main_queued_blocked : traffic_step 0 main_queued = none := by
  unfold traffic_step
  have hpc : main_queued.pc 0 = Pc.at_sem_wait := by simp [main_queued]
  rw [hpc]
  simp only []
  rw [if_neg (by simp [main_queued, main_start, static_sem])]

theorem reachable_entered : Reachable fixed_start entered :=
  Reachable.step (Reachable.step Reachable.start ⟨0, fixed_start_step⟩) ⟨0, queued_step⟩

theorem holders_entered : holders entered = 1 := by
  simp [holders, entered, queued, fixed_start, main_start, holds, Function.update, List.filter]

/-- C1 at a concrete run: from `fixed_start` car 0 moves into the intersection
and takes the permit; one car holds the token, and not more. -/
theorem mutual_exclusion_witness : holders entered = 1 ∧ holders entered ≤ 1 :=
  ⟨holders_entered, mutual_exclusion fixed_start entered rfl (by decide) reachable_entered⟩

theorem step_initialised (s t : Sys) (h : Step s t) : t.sem.initialised = s.sem.initialised := by
  obtain ⟨carnum, hstep⟩ := h
  unfold traffic_step at hstep
  cases hpc : s.pc carnum <;> rw [hpc] at hstep <;> simp only [] at hstep <;>
    (try split_ifs at hstep) <;> injection hstep with hstep <;> subst hstep <;> rfl

theorem reachable_initialised (s t : Sys) (h : Reachable s t) :
    t.sem.initialised = s.sem.initialised := by
  induction h with
  | start => rfl
  | step _ hs ih => rw [step_initialised _ _ hs, ih]

theorem holders_main_start (seed : Nat → Nat) : holders (main_start seed) = 0 := rfl

/-- C2, the code at its start state: `main` creates the threads with `sem`
never initialised and without a permit, and this never changes: in every state
the threads reach, `sem` is uninitialised and has value 0, no car holds the
token, and a car that stands at `sem_wait` cannot take a step. -/
theorem main_never_enters (seed : Nat → Nat) (t : Sys) (h : Reachable (main_start seed) t) :
    t.sem.initialised = false ∧ t.sem.value = 0 ∧ holders t = 0 ∧
    ∀ carnum : Fin 4, t.pc carnum = Pc.at_sem_wait → traffic_step carnum t = none := by
  have h1 := reachable_initialised _ _ h
  have h2 := reachable_permits _ _ h
  rw [holders_main_start] at h2
  have h0 : (main_start seed).sem.value = 0 := rfl
  rw [h0] at h2
  have hv : t.sem.value = 0 := by omega
  refine ⟨h1, hv, by omega, ?_⟩
  intro carnum hpc
  unfold traffic_step
  rw [hpc]
  simp only []
  rw [if_neg (by omega)]

theorem reachable_main_queued : Reachable (main_start seed2) main_queued :=
  Reachable.step Reachable.start ⟨0, main_start_step⟩

/-- C2 at a concrete run: after its first step car 0 stands at `sem_wait`, and
`traffic_step` has no step for it. -/
theorem main_never_enters_witness :
    main_queued.pc 0 = Pc.at_sem_wait ∧ traffic_step 0 main_queued = none :=
  ⟨by simp [main_queued],
   (main_never_enters seed2 main_queued reachable_main_queued).2.2.2 0 (by simp [main_queued])⟩

/-! ## Theorems: lanes -/

theorem throttle_lanes (s : World) (h : Lanes s) : Lanes (throttle s) := by
  obtain ⟨a1, a2, a3, a4, a5, a6, a7, a8, a9, a10, a11, a12, a13, a14, a15, a16, a17, a18, a19,
    a20, a21, a22⟩ := h
  constructor <;> simpa [throttle, rand]

theorem move_lanes (carnum : Fin 4) (s : World) (h : Lanes s) : Lanes (move carnum s) := by
  obtain ⟨a1, a2, a3, a4, a5, a6, a7, a8, a9, a10, a11, a12, a13, a14, a15, a16, a17, a18, a19,
    a20, a21, a22⟩ := h
  fin_cases carnum <;> constructor <;> simp [move, setCar, Function.update, *]

theorem wrap_left_lanes (carnum : Fin 4) (s : World) (h : Lanes s) :
    Lanes (wrap_left carnum s) := by
  rw [wrap_left_eq]
  split_ifs with hc
  · obtain ⟨a1, a2, a3, a4, a5, a6, a7, a8, a9, a10, a11, a12, a13, a14, a15, a16, a17, a18, a19,
      a20, a21, a22⟩ := h
    fin_cases carnum <;> simp at hc <;>
      first
      | (exfalso; linarith [hc.2])
      | (constructor <;> simp [Function.update, *])
  · exact h

theorem wrap_right_lanes (carnum : Fin 4) (s : World) (h : Lanes s) :
    Lanes (wrap_right carnum s) := by
  rw [wrap_right_eq]
  split_ifs with hc
  · obtain ⟨a1, a2, a3, a4, a5, a6, a7, a8, a9, a10, a11, a12, a13, a14, a15, a16, a17, a18, a19,
      a20, a21, a22⟩ := h
    fin_cases carnum <;> simp at hc <;>
      first
      | (exfalso; linarith [hc.2])
      | (constructor <;> simp [Function.update, *])
  · exact h

theorem wrap_top_lanes (carnum : Fin 4) (s : World) (h : Lanes s) :
    Lanes (wrap_top carnum s) := by
  rw [wrap_top_eq]
  split_ifs with hc
  · obtain ⟨a1, a2, a3, a4, a5, a6, a7, a8, a9, a10, a11, a12, a13, a14, a15, a16, a17, a18, a19,
      a20, a21, a22⟩ := h
    fin_cases carnum <;> simp at hc <;>
      first
      | (exfalso; linarith [hc.2])
      | (constructor <;> simp [Function.update, *])
  · exact h

theorem wrap_bottom_lanes (carnum : Fin 4) (s : World) (h : Lanes s) :
    Lanes (wrap_bottom carnum s) := by
  rw [wrap_bottom_eq]
  split_ifs with hc
  · obtain ⟨a1, a2, a3, a4, a5, a6, a7, a8, a9, a10, a11, a12, a13, a14, a15, a16, a17, a18, a19,
      a20, a21, a22⟩ := h
    fin_cases carnum <;> simp at hc <;>
      first
      | (exfalso; linarith [hc.2])
      | (constructor <;> simp [Function.update, *])
  · exact h

theorem wrap_lanes (carnum : Fin 4) (s : World) (h : Lanes s) : Lanes (wrap carnum s) :=
  wrap_bottom_lanes _ _ (wrap_right_lanes _ _ (wrap_top_lanes _ _ (wrap_left_lanes _ _ h)))

theorem drives_lanes (s t : World) (h : Lanes s) (hd : Drives s t) : Lanes t := by
  induction hd with
  | start => exact h
  | throttle _ ih => exact throttle_lanes _ ih
  | move c _ ih => exact move_lanes c _ ih
  | wrap c _ ih => exact wrap_lanes c _ ih

theorem lanes_collision_inside (s : World) (h : Lanes s) (i j : Fin 4) (hij : i ≠ j)
    (ho : overlap (s.cars i) (s.cars j) = 1) :
    overlap (s.cars i) s.intersection = 1 ∧ overlap (s.cars j) s.intersection = 1 := by
  obtain ⟨a1, a2, a3, a4, a5, a6, a7, a8, a9, a10, a11, a12, a13, a14, a15, a16, a17, a18, a19,
    a20, a21, a22⟩ := h
  obtain ⟨p0, q0⟩ := half_long _ a6 a7
  obtain ⟨p2, q2⟩ := half_long _ a11 a12
  obtain ⟨p1, q1⟩ := half_long _ a16 a17
  obtain ⟨p3, q3⟩ := half_long _ a21 a22
  have e18 := half_18
  have e100 := half_100
  simp only [overlap_eq_one_iff, projections_meet, Box.left, Box.right, Box.top, Box.bottom]
    at ho ⊢
  rw [a1, a2, e100]
  fin_cases i <;> fin_cases j <;> simp only [ne_eq, not_true_eq_false] at hij <;>
    simp only [Fin.zero_eta, Fin.mk_one, Fin.reduceFinMk] at ho ⊢ <;>
    simp only [a3, a4, a8, a9, a13, a14, a18, a19, e18] at ho ⊢ <;>
    obtain ⟨o1, o2, o3, o4⟩ := ho <;>
    refine ⟨⟨?_, ?_, ?_, ?_⟩, ⟨?_, ?_, ?_, ?_⟩⟩ <;> linarith

theorem lanes_opposite (s : World) (h : Lanes s) :
    overlap (s.cars 0) (s.cars 2) = 0 ∧ overlap (s.cars 2) (s.cars 0) = 0 ∧
    overlap (s.cars 1) (s.cars 3) = 0 ∧ overlap (s.cars 3) (s.cars 1) = 0 := by
  have e18 := half_18
  simp only [overlap_eq_zero_iff, projections_meet, Box.left, Box.right, Box.top, Box.bottom,
    h.h0, h.y0, h.h2, h.y2, h.w1, h.x1, h.w3, h.x3, e18]
  refine ⟨?_, ?_, ?_, ?_⟩ <;> rintro ⟨o1, o2, o3, o4⟩ <;> linarith

/-- C10: collisions happen only inside the intersection.  In every state the
car threads reach from the layout of `init` (any window size, any outcome of
`rand`) by position advances and window tests of any cars: two distinct cars
that overlap each other both overlap the intersection; the cars of opposite
lanes (0 and 2, 1 and 3) do not overlap each other; hence when at most one car
overlaps the intersection no two cars overlap. -/
theorem collisions_only_inside (seed : Nat → Nat) (s t : World)
    (hd : Drives (init seed s) t) :
    (∀ i j : Fin 4, i ≠ j → overlap (t.cars i) (t.cars j) = 1 →
      overlap (t.cars i) t.intersection = 1 ∧ overlap (t.cars j) t.intersection = 1) ∧
    (overlap (t.cars 0) (t.cars 2) = 0 ∧ overlap (t.cars 2) (t.cars 0) = 0 ∧
      overlap (t.cars 1) (t.cars 3) = 0 ∧ overlap (t.cars 3) (t.cars 1) = 0) ∧
    ((∀ i j : Fin 4, overlap (t.cars i) t.intersection = 1 →
        overlap (t.cars j) t.intersection = 1 → i = j) →
      ∀ i j : Fin 4, i ≠ j → overlap (t.cars i) (t.cars j) = 0) := by
  have L := drives_lanes _ _ (init_lanes seed s) hd
  refine ⟨fun i j hij ho => lanes_collision_inside t L i j hij ho, lanes_opposite t L, ?_⟩
  intro hone i j hij
  rcases overlap_zero_or_one (t.cars i) (t.cars j) with h | h
  · exact h
  · obtain ⟨hi, hj⟩ := lanes_collision_inside t L i j hij h
    exact absurd (hone i j hi hj) hij

theorem drives_move_iterate (s : World) (carnum : Fin 4) (n : Nat) :
    Drives s ((move carnum)^[n] s) := by
  induction n with
  | zero => exact Drives.start
  | succ n ih => rw [Function.iterate_succ_apply']; exact Drives.move carnum ih

theorem drives_trans (s t u : World) (h1 : Drives s t) (h2 : Drives t u) : Drives s u := by
  induction h2 with
  | start => exact h1
  | throttle _ ih => exact Drives.throttle ih
  | move c _ ih => exact Drives.move c ih
  | wrap c _ ih => exact Drives.wrap c ih

theorem move_iterate_car (s : World) (carnum : Fin 4) (n : Nat) :
    ((move carnum)^[n] s).cars carnum =
      { s.cars carnum with
        pos0 := (s.cars carnum).pos0 + (n : ℚ) * (s.cars carnum).vel0,
        pos1 := (s.cars carnum).pos1 + (n : ℚ) * (s.cars carnum).vel1 } := by
  induction n with
  | zero => simp
  | succ n ih =>
    rw [Function.iterate_succ_apply']
    simp only [move, setCar, Function.update_same, Function.update_idem, ih]
    push_cast
    congr 1 <;> ring

theorem move_iterate_other (s : World) (carnum d : Fin 4) (n : Nat) (h : d ≠ carnum) :
    ((move carnum)^[n] s).cars d = s.cars d := by
  induction n with
  | zero => rfl
  | succ n ih =>
    rw [Function.iterate_succ_apply']
    simp [move, setCar, Function.update, h, ih]

theorem move_iterate_intersection (s : World) (carnum : Fin 4) (n : Nat) :
    ((move carnum)^[n] s).intersection = s.intersection := by
  induction n with
  | zero => rfl
  | succ n ih =>
    rw [Function.iterate_succ_apply']
    simp [move, setCar, ih]

theorem crossing_def :
    crossing = (move 1)^[340000] ((move 0)^[380000] layout400) := rfl

theorem layout400_car0 : layout400.cars 0 = ⟨430, 179, -0.0006, 0, 30, 18⟩ := by
  have h200 : Int.tdiv 400 2 = 200 := rfl
  simp only [layout400, init_car0, init_xwindows, static_world, speed, stretch, seed2, h200]
  norm_num

theorem layout400_car1 : layout400.cars 1 = ⟨179, -30, 0, 0.0006, 18, 30⟩ := by
  have h200 : Int.tdiv 400 2 = 200 := rfl
  simp only [layout400, init_car1, init_xwindows, static_world, speed, stretch, seed2, h200]
  norm_num

theorem layout400_intersection : layout400.intersection = ⟨200, 200, 0, 0, 100, 100⟩ := by
  have h200 : Int.tdiv 400 2 = 200 := rfl
  simp only [layout400, init_intersection, init_xwindows, static_world, h200]
  norm_num

theorem drives_crossing : Drives layout400 crossing :=
  crossing_def ▸ drives_trans _ _ _ (drives_move_iterate layout400 0 380000) (drives_move_iterate _ 1 340000)

theorem crossing_car0 : crossing.cars 0 = ⟨202, 179, -0.0006, 0, 30, 18⟩ := by
  rw [crossing_def, move_iterate_other _ 1 0 _ (by decide), move_iterate_car, layout400_car0]
  norm_num

theorem crossing_car1 : crossing.cars 1 = ⟨179, 174, 0, 0.0006, 18, 30⟩ := by
  rw [crossing_def, move_iterate_car, move_iterate_other _ 0 1 _ (by decide), layout400_car1]
  norm_num

theorem crossing_collides : overlap (crossing.cars 0) (crossing.cars 1) = 1 := by
  rw [crossing_car0, crossing_car1]
  norm_num [overlap, half_eq]

/-- C10 at a concrete state: in a 400 by 400 window, after 380000 advances of
car 0 and 340000 advances of car 1, the two cars overlap each other, and both
overlap the intersection. -/
theorem collisions_only_inside_witness :
    overlap (crossing.cars 0) (crossing.cars 1) = 1 ∧
    overlap (crossing.cars 0) crossing.intersection = 1 ∧
    overlap (crossing.cars 1) crossing.intersection = 1 :=
  ⟨crossing_collides,
   (collisions_only_inside seed2 (init_xwindows 400 400 (static_world seed2)) crossing
      drives_crossing).1 0 1 (by decide) crossing_collides⟩

theorem step_drives (s t : Sys) (h : Step s t) : Drives s.world t.world := by
  obtain ⟨carnum, hstep⟩ := h
  unfold traffic_step at hstep
  cases hpc : s.pc carnum <;> rw [hpc] at hstep <;> simp only [] at hstep
  · split_ifs at hstep <;>
    · injection hstep with hstep
      subst hstep
      exact Drives.move carnum (Drives.throttle Drives.start)
  · split_ifs at hstep
    injection hstep with hstep
    subst hstep
    exact Drives.start
  · split_ifs at hstep
    · injection hstep with hstep
      subst hstep
      exact Drives.move carnum (Drives.throttle Drives.start)
    · injection hstep with hstep
      subst hstep
      exact Drives.start
  · injection hstep with hstep
    subst hstep
    exact Drives.start
  · injection hstep with hstep
    subst hstep
    exact Drives.wrap carnum Drives.start

theorem reachable_drives (s t : Sys) (h : Reachable s t) : Drives s.world t.world := by
  induction h with
  | start => exact Drives.start
  | step _ hs ih => exact drives_trans _ _ _ ih (step_drives _ _ hs)

theorem init_xwindows_lanes (w h : Int) (s : World) (hl : Lanes s) :
    Lanes (init_xwindows w h s) := by
  obtain ⟨a1, a2, a3, a4, a5, a6, a7, a8, a9, a10, a11, a12, a13, a14, a15, a16, a17, a18, a19,
    a20, a21, a22⟩ := hl
  constructor <;> simpa [init_xwindows]

/-- The lane discipline holds in every state the threads of the program reach
from the state in which `main` creates them, so there too two distinct cars
that overlap each other both overlap the intersection. -/
theorem main_collisions_inside (seed : Nat → Nat) (t : Sys)
    (h : Reachable (main_start seed) t) (i j : Fin 4) (hij : i ≠ j)
    (ho : overlap (t.world.cars i) (t.world.cars j) = 1) :
    overlap (t.world.cars i) t.world.intersection = 1 ∧
      overlap (t.world.cars j) t.world.intersection = 1 :=
  lanes_collision_inside _
    (drives_lanes _ _ (init_xwindows_lanes 400 400 _ (init_lanes seed _))
      (reachable_drives _ _ h)) i j hij ho

/-! ## Theorems: the whole process -/

theorem throttle_cars (s : World) : (throttle s).cars = s.cars := rfl
theorem throttle_intersection (s : World) : (throttle s).intersection = s.intersection := rfl
theorem throttle_g (s : World) : (throttle s).g = s.g := rfl
theorem move_intersection (c : Fin 4) (s : World) : (move c s).intersection = s.intersection := rfl
theorem move_g (c : Fin 4) (s : World) : (move c s).g = s.g := rfl

theorem throttle_dist (i : Fin 4) (s : World) : dist i (throttle s) = dist i s := by
  fin_cases i <;> rfl

theorem throttle_approach (i : Fin 4) (s : World) : approach i (throttle s) = approach i s := by
  fin_cases i <;> rfl

theorem move_approach (c i : Fin 4) (s : World) : approach i (move c s) = approach i s := by
  fin_cases i <;> fin_cases c <;> simp [approach, move, setCar, Function.update]

theorem move_dist_self (c : Fin 4) (s : World) :
    dist c (move c s) = dist c s - approach c s := by
  fin_cases c <;> simp [dist, approach, move, setCar, Function.update] <;> ring

theorem move_dist_other (c i : Fin 4) (s : World) (h : i ≠ c) :
    dist i (move c s) = dist i s := by
  fin_cases i <;> fin_cases c <;> simp at h <;> simp [dist, move, setCar, Function.update]


theorem speed_le (r : Nat) : ((speed r : Int) : ℚ) * 0.0002 ≤ 0.0006 := by
  have h : ((speed r : Int) : ℚ) ≤ 3 := by
    have : speed r ≤ 3 := by rcases speed_cases r with h | h | h <;> omega
    exact_mod_cast this
  norm_num at h ⊢
  linarith

theorem wrap_left_cruise (c : Fin 4) (s : World) (h : Cruise s) :
    Cruise (wrap_left c s) ∧ ∀ i, dist i s ≤ dist i (wrap_left c s) := by
  obtain ⟨hl, hx, hy, hv⟩ := h
  by_cases hc : (s.cars c).pos0 < -20 ∧ (s.cars c).vel0 < 0
  · have hlanes := wrap_left_lanes c s hl
    have hg := (wrap_left_frame c s).1
    rw [wrap_left_eq, if_pos hc] at hlanes hg ⊢
    have hxq : (0 : ℚ) ≤ (s.g.xres : ℚ) := by exact_mod_cast hx
    have hp := speed_pos (s.rng 0)
    have hle := speed_le (s.rng 0)
    have h0 := hv 0; have h1 := hv 1; have h2 := hv 2; have h3 := hv 3
    simp only [approach] at h0 h1 h2 h3
    fin_cases c
    · refine ⟨⟨hlanes, hx, hy, ?_⟩, ?_⟩
      · intro i
        fin_cases i <;> simp [approach, Function.update] <;>
          first | exact h1 | exact h2 | exact h3 | (constructor <;> linarith)
      · intro i
        fin_cases i <;> (simp [dist, Function.update]; try linarith)
    · exfalso; have := hl.v1; simp at hc; linarith [hc.2]
    · exfalso; simp at hc; linarith [hc.2, h2.1]
    · exfalso; have := hl.v3; simp at hc; linarith [hc.2]
  · have hs : wrap_left c s = s := by rw [wrap_left_eq, if_neg hc]
    rw [hs]
    exact ⟨⟨hl, hx, hy, hv⟩, fun i => le_refl _⟩

theorem wrap_right_cruise (c : Fin 4) (s : World) (h : Cruise s) :
    Cruise (wrap_right c s) ∧ ∀ i, dist i s ≤ dist i (wrap_right c s) := by
  obtain ⟨hl, hx, hy, hv⟩ := h
  by_cases hc : (s.cars c).pos0 > ((s.g.xres + 20 : Int) : ℚ) ∧ (s.cars c).vel0 > 0
  · have hlanes := wrap_right_lanes c s hl
    have hg := (wrap_right_frame c s).1
    rw [wrap_right_eq, if_pos hc] at hlanes hg ⊢
    have hxq : (0 : ℚ) ≤ (s.g.xres : ℚ) := by exact_mod_cast hx
    have hp := speed_pos (s.rng 0)
    have hle := speed_le (s.rng 0)
    have h0 := hv 0; have h1 := hv 1; have h2 := hv 2; have h3 := hv 3
    simp only [approach] at h0 h1 h2 h3
    fin_cases c
    · exfalso; simp at hc; linarith [hc.2, h0.1]
    · exfalso; have := hl.v1; simp at hc; linarith [hc.2]
    · refine ⟨⟨hlanes, hx, hy, ?_⟩, ?_⟩
      · intro i
        fin_cases i <;> simp [approach, Function.update] <;>
          first | exact h0 | exact h1 | exact h3 | (constructor <;> linarith)
      · intro i
        fin_cases i <;> (simp [dist, Function.update]; try linarith)
    · exfalso; have := hl.v3; simp at hc; linarith [hc.2]
  · have hs : wrap_right c s = s := by rw [wrap_right_eq, if_neg hc]
    rw [hs]
    exact ⟨⟨hl, hx, hy, hv⟩, fun i => le_refl _⟩

theorem wrap_top_cruise (c : Fin 4) (s : World) (h : Cruise s) :
    Cruise (wrap_top c s) ∧ ∀ i, dist i s ≤ dist i (wrap_top c s) := by
  obtain ⟨hl, hx, hy, hv⟩ := h
  by_cases hc : (s.cars c).pos1 < -20 ∧ (s.cars c).vel1 < 0
  · have hlanes := wrap_top_lanes c s hl
    have hg := (wrap_top_frame c s).1
    rw [wrap_top_eq, if_pos hc] at hlanes hg ⊢
    have hyq : (0 : ℚ) ≤ (s.g.yres : ℚ) := by exact_mod_cast hy
    have hp := speed_pos (s.rng 0)
    have hle := speed_le (s.rng 0)
    have h0 := hv 0; have h1 := hv 1; have h2 := hv 2; have h3 := hv 3
    simp only [approach] at h0 h1 h2 h3
    fin_cases c
    · exfalso; have := hl.v0; simp at hc; linarith [hc.2]
    · exfalso; simp at hc; linarith [hc.2, h1.1]
    · exfalso; have := hl.v2; simp at hc; linarith [hc.2]
    · refine ⟨⟨hlanes, hx, hy, ?_⟩, ?_⟩
      · intro i
        fin_cases i <;> simp [approach, Function.update] <;>
          first | exact h0 | exact h1 | exact h2 | (constructor <;> linarith)
      · intro i
        fin_cases i <;> (simp [dist, Function.update]; try linarith)
  · have hs : wrap_top c s = s := by rw [wrap_top_eq, if_neg hc]
    rw [hs]
    exact ⟨⟨hl, hx, hy, hv⟩, fun i => le_refl _⟩

theorem wrap_bottom_cruise (c : Fin 4) (s : World) (h : Cruise s) :
    Cruise (wrap_bottom c s) ∧ ∀ i, dist i s ≤ dist i (wrap_bottom c s) := by
  obtain ⟨hl, hx, hy, hv⟩ := h
  by_cases hc : (s.cars c).pos1 > ((s.g.yres + 20 : Int) : ℚ) ∧ (s.cars c).vel1 > 0
  · have hlanes := wrap_bottom_lanes c s hl
    have hg := (wrap_bottom_frame c s).1
    rw [wrap_bottom_eq, if_pos hc] at hlanes hg ⊢
    have hyq : (0 : ℚ) ≤ (s.g.yres : ℚ) := by exact_mod_cast hy
    have hp := speed_pos (s.rng 0)
    have hle := speed_le (s.rng 0)
    have h0 := hv 0; have h1 := hv 1; have h2 := hv 2; have h3 := hv 3
    simp only [approach] at h0 h1 h2 h3
    fin_cases c
    · exfalso; have := hl.v0; simp at hc; linarith [hc.2]
    · refine ⟨⟨hlanes, hx, hy, ?_⟩, ?_⟩
      · intro i
        fin_cases i <;> simp [approach, Function.update] <;>
          first | exact h0 | exact h2 | exact h3 | (constructor <;> linarith)
      · intro i
        fin_cases i <;> (simp [dist, Function.update]; try linarith)
    · exfalso; have := hl.v2; simp at hc; linarith [hc.2]
    · exfalso; simp at hc; linarith [hc.2, h3.1]
  · have hs : wrap_bottom c s = s := by rw [wrap_bottom_eq, if_neg hc]
    rw [hs]
    exact ⟨⟨hl, hx, hy, hv⟩, fun i => le_refl _⟩

theorem wrap_cruise (c : Fin 4) (s : World) (h : Cruise s) :
    Cruise (wrap c s) ∧ ∀ i, dist i s ≤ dist i (wrap c s) := by
  obtain ⟨c1, d1⟩ := wrap_left_cruise c s h
  obtain ⟨c2, d2⟩ := wrap_top_cruise c _ c1
  obtain ⟨c3, d3⟩ := wrap_right_cruise c _ c2
  obtain ⟨c4, d4⟩ := wrap_bottom_cruise c _ c3
  exact ⟨c4, fun i => le_trans (d1 i) (le_trans (d2 i) (le_trans (d3 i) (d4 i)))⟩

theorem wrap_ncollisions (c : Fin 4) (s : World) :
    (wrap c s).g.ncollisions = s.g.ncollisions := by
  unfold wrap
  rw [(wrap_bottom_frame c _).1, (wrap_right_frame c _).1, (wrap_top_frame c _).1,
    (wrap_left_frame c _).1]

theorem outside_far (s : World) (hl : Lanes s) (i : Fin 4) (hd : 29 ≤ dist i s)
    (ho : overlap (s.cars i) s.intersection = 0) : 30 ≤ dist i s := by
  obtain ⟨a1, a2, a3, a4, a5, a6, a7, a8, a9, a10, a11, a12, a13, a14, a15, a16, a17, a18, a19,
    a20, a21, a22⟩ := hl
  obtain ⟨p0, q0⟩ := half_long _ a6 a7
  obtain ⟨p2, q2⟩ := half_long _ a11 a12
  obtain ⟨p1, q1⟩ := half_long _ a16 a17
  obtain ⟨p3, q3⟩ := half_long _ a21 a22
  have e18 := half_18
  have e100 := half_100
  by_contra hlt
  rw [not_le] at hlt
  rw [overlap_eq_zero_iff] at ho
  apply ho
  simp only [projections_meet, Box.left, Box.right, Box.top, Box.bottom]
  rw [a1, a2, e100]
  fin_cases i <;> simp only [dist] at hd hlt <;>
    simp only [Fin.zero_eta, Fin.mk_one, Fin.reduceFinMk] at hd hlt ⊢ <;>
    simp only [a3, a4, a8, a9, a13, a14, a18, a19, e18] <;>
    refine ⟨?_, ?_, ?_, ?_⟩ <;> linarith

theorem far_no_collision (s : World) (hl : Lanes s) (hd : ∀ i, 29 ≤ dist i s)
    (i j : Fin 4) (hij : i ≠ j) : overlap (s.cars i) (s.cars j) = 0 := by
  obtain ⟨a1, a2, a3, a4, a5, a6, a7, a8, a9, a10, a11, a12, a13, a14, a15, a16, a17, a18, a19,
    a20, a21, a22⟩ := hl
  obtain ⟨p0, q0⟩ := half_long _ a6 a7
  obtain ⟨p2, q2⟩ := half_long _ a11 a12
  obtain ⟨p1, q1⟩ := half_long _ a16 a17
  obtain ⟨p3, q3⟩ := half_long _ a21 a22
  have e18 := half_18
  have d0 := hd 0; have d1 := hd 1; have d2 := hd 2; have d3 := hd 3
  simp only [dist] at d0 d1 d2 d3
  rw [overlap_eq_zero_iff]
  simp only [projections_meet, Box.left, Box.right, Box.top, Box.bottom]
  fin_cases i <;> fin_cases j <;> simp only [ne_eq, not_true_eq_false] at hij <;>
    simp only [Fin.zero_eta, Fin.mk_one, Fin.reduceFinMk] <;>
    simp only [a3, a4, a8, a9, a13, a14, a18, a19, e18] <;>
    rintro ⟨o1, o2, o3, o4⟩ <;> linarith

theorem far_no_collide (s : World) (hl : Lanes s) (hd : ∀ i, 29 ≤ dist i s) :
    (Finset.univ : Finset (Fin 4 × Fin 4)).filter (collide s.cars) = ∅ := by
  apply Finset.filter_false_of_mem
  rintro p - ⟨hne, ho⟩
  rw [far_no_collision s hl hd p.1 p.2 hne] at ho
  exact absurd ho (by norm_num)

theorem init_dist (seed : Nat → Nat) (s : World) (hx : 0 ≤ s.g.xres) (hy : 0 ≤ s.g.yres)
    (i : Fin 4) : 30 ≤ dist i (init seed s) := by
  obtain ⟨cx0, cx1⟩ := tdiv_two _ hx
  obtain ⟨cy0, cy1⟩ := tdiv_two _ hy
  have cx0q : (0 : ℚ) ≤ ((Int.tdiv s.g.xres 2 : Int) : ℚ) := by exact_mod_cast cx0
  have cx1q : ((Int.tdiv s.g.xres 2 : Int) : ℚ) ≤ (s.g.xres : ℚ) := by exact_mod_cast cx1
  have cy0q : (0 : ℚ) ≤ ((Int.tdiv s.g.yres 2 : Int) : ℚ) := by exact_mod_cast cy0
  have cy1q : ((Int.tdiv s.g.yres 2 : Int) : ℚ) ≤ (s.g.yres : ℚ) := by exact_mod_cast cy1
  fin_cases i <;>
    simp only [dist, Fin.zero_eta, Fin.mk_one, Fin.reduceFinMk, init_car0, init_car1, init_car2,
      init_car3, init_intersection] <;>
    push_cast <;> linarith

theorem init_approach (seed : Nat → Nat) (s : World) (i : Fin 4) :
    0 < approach i (init seed s) ∧ approach i (init seed s) ≤ 0.0006 := by
  have p1 := speed_pos (seed 1); have l1 := speed_le (seed 1)
  have p3 := speed_pos (seed 3); have l3 := speed_le (seed 3)
  have p5 := speed_pos (seed 5); have l5 := speed_le (seed 5)
  have p7 := speed_pos (seed 7); have l7 := speed_le (seed 7)
  fin_cases i <;>
    simp only [approach, Fin.zero_eta, Fin.mk_one, Fin.reduceFinMk, init_car0, init_car1,
      init_car2, init_car3] <;>
    push_cast <;> constructor <;> linarith

theorem lanes_congr (s w : World) (hl : Lanes s) (hc : w.cars = s.cars)
    (hi : w.intersection = s.intersection) : Lanes w := by
  obtain ⟨a1, a2, a3, a4, a5, a6, a7, a8, a9, a10, a11, a12, a13, a14, a15, a16, a17, a18, a19,
    a20, a21, a22⟩ := hl
  constructor <;> simp only [hc, hi] <;> assumption

theorem dist_congr (s w : World) (hc : w.cars = s.cars) (hi : w.intersection = s.intersection)
    (i : Fin 4) : dist i w = dist i s := by
  fin_cases i <;> simp [dist, hc, hi]

theorem approach_congr (s w : World) (hc : w.cars = s.cars) (i : Fin 4) :
    approach i w = approach i s := by
  fin_cases i <;> simp [approach, hc]

/-- The invariant `Parked` reads only the cars, the intersection, the window
size and the count. -/
theorem parked_congr (s : Sys) (w : World) (hp : Parked s) (hc : w.cars = s.world.cars)
    (hi : w.intersection = s.world.intersection) (hx : w.g.xres = s.world.g.xres)
    (hy : w.g.yres = s.world.g.yres) (hn : w.g.ncollisions = 0) :
    Parked { s with world := w } where
  lanes := lanes_congr _ _ hp.lanes hc hi
  xres := by simpa [hx] using hp.xres
  yres := by simpa [hy] using hp.yres
  count := hn
  sem := hp.sem
  out := hp.out
  slow := fun i => by
    show 0 < approach i w ∧ approach i w ≤ 0.0006
    rw [approach_congr _ _ hc]; exact hp.slow i
  far := fun i => by
    show 29 ≤ dist i w
    rw [dist_congr _ _ hc hi]; exact hp.far i
  fresh := fun i h => by
    show 30 ≤ dist i w
    rw [dist_congr _ _ hc hi]; exact hp.fresh i h

theorem physics_pair_frame (i j : Fin 4) (s : World) :
    (physics_pair i j s).intersection = s.intersection ∧
    (physics_pair i j s).g.xres = s.g.xres ∧ (physics_pair i j s).g.yres = s.g.yres := by
  unfold physics_pair; split_ifs <;> exact ⟨rfl, rfl, rfl⟩

theorem foldl_pairs_frame (l : List (Fin 4 × Fin 4)) (s : World) :
    (l.foldl (fun s p => physics_pair p.1 p.2 s) s).intersection = s.intersection ∧
    (l.foldl (fun s p => physics_pair p.1 p.2 s) s).g.xres = s.g.xres ∧
    (l.foldl (fun s p => physics_pair p.1 p.2 s) s).g.yres = s.g.yres := by
  induction l generalizing s with
  | nil => exact ⟨rfl, rfl, rfl⟩
  | cons p l ih =>
    obtain ⟨h1, h2, h3⟩ := ih (physics_pair p.1 p.2 s)
    obtain ⟨f1, f2, f3⟩ := physics_pair_frame p.1 p.2 s
    simp only [List.foldl_cons]
    exact ⟨h1.trans f1, h2.trans f2, h3.trans f3⟩

theorem physics_frame (s : World) :
    (physics s).cars = s.cars ∧ (physics s).intersection = s.intersection ∧
    (physics s).g.xres = s.g.xres ∧ (physics s).g.yres = s.g.yres := by
  rw [physics_eq_foldl]
  obtain ⟨h1, h2, h3⟩ := foldl_pairs_frame pairs { s with g := { s.g with collision_flag := 0 } }
  exact ⟨(foldl_pairs pairs _).1, h1, h2, h3⟩

theorem handle_frame (p : Pending) (s : World) (h : p.e.isConfigure = false) :
    (handle p s).2.cars = s.cars ∧ (handle p s).2.intersection = s.intersection ∧
    (handle p s).2.g.xres = s.g.xres ∧ (handle p s).2.g.yres = s.g.yres := by
  obtain ⟨seed, e⟩ := p
  cases e <;> simp [XEvent.isConfigure] at h <;>
    simp [handle, check_resize, check_mouse, check_keys] <;>
    split_ifs <;> simp

theorem handle_configure (seed : Nat → Nat) (width height : Int) (s : World) :
    (handle ⟨seed, XEvent.ConfigureNotify width height⟩ s).2 =
      init seed { s with g := { s.g with xres := width, yres := height } } := rfl

theorem init_xwindows_cars (w h : Int) (s : World) : (init_xwindows w h s).cars = s.cars :=
  rfl

theorem init_xwindows_intersection (w h : Int) (s : World) :
    (init_xwindows w h s).intersection = s.intersection := rfl

theorem init_xwindows_g (w h : Int) (s : World) :
    (init_xwindows w h s).g = { s.g with xres := w, yres := h } := rfl

theorem main_start_world (seed : Nat → Nat) :
    (main_start seed).world = init_xwindows 400 400 (init seed (static_world seed)) := rfl

theorem parked_main_start (seed : Nat → Nat) : Parked (main_start seed) where
  lanes := by
    rw [main_start_world]; exact init_xwindows_lanes 400 400 _ (init_lanes seed _)
  xres := by rw [main_start_world, init_xwindows_g]; norm_num
  yres := by rw [main_start_world, init_xwindows_g]; norm_num
  count := by rw [main_start_world, init_xwindows_g, init_g]
  sem := rfl
  out := fun _ => rfl
  slow := fun i => by
    rw [main_start_world, approach_congr _ _ (init_xwindows_cars 400 400 _)]
    exact init_approach seed (static_world seed) i
  far := fun i => by
    rw [main_start_world, dist_congr _ _ (init_xwindows_cars 400 400 _)
      (init_xwindows_intersection 400 400 _)]
    have := init_dist seed (static_world seed) (le_refl _) (le_refl _) i
    linarith
  fresh := fun i _ => by
    rw [main_start_world, dist_congr _ _ (init_xwindows_cars 400 400 _)
      (init_xwindows_intersection 400 400 _)]
    exact init_dist seed (static_world seed) (le_refl _) (le_refl _) i

theorem parked_event (p : Pending) (s : Sys) (hp : Parked s) (hsz : p.e.wellSized) :
    Parked (control_event p s) := by
  obtain ⟨seed, e⟩ := p
  by_cases hc : e.isConfigure = false
  · obtain ⟨f1, f2, f3, f4⟩ := handle_frame ⟨seed, e⟩ s.world hc
    exact parked_congr s _ hp f1 f2 f3 f4
      (by rw [handle_ncollisions _ _ hc]; exact hp.count)
  · cases e <;> simp [XEvent.isConfigure] at hc
    rename_i width height
    obtain ⟨hw, hh⟩ := hsz
    unfold control_event
    rw [handle_configure]
    exact {
      lanes := init_lanes _ _
      xres := by rw [init_g]; exact hw
      yres := by rw [init_g]; exact hh
      count := by rw [init_g]
      sem := hp.sem
      out := hp.out
      slow := fun i => init_approach _ _ i
      far := fun i => by
        have := init_dist seed
          { s.world with g := { s.world.g with xres := width, yres := height } } hw hh i
        show 29 ≤ dist i _
        linarith
      fresh := fun i _ => init_dist seed
          { s.world with g := { s.world.g with xres := width, yres := height } } hw hh i }

theorem parked_physics (s : Sys) (hp : Parked s) : Parked (control_physics s) := by
  obtain ⟨f1, f2, f3, f4⟩ := physics_frame s.world
  refine parked_congr s _ hp f1 f2 f3 f4 ?_
  rw [physics_count_eq, far_no_collide _ hp.lanes hp.far, hp.count]
  simp

theorem holds_update (s : Sys) (c : Fin 4) (q : Pc) (hq : holds q = false)
    (ho : ∀ i, holds (s.pc i) = false) (i : Fin 4) :
    holds (Function.update s.pc c q i) = false := by
  by_cases h : i = c
  · subst h; rw [Function.update_same]; exact hq
  · rw [Function.update_noteq h]; exact ho i

theorem parked_car (c : Fin 4) (s t : Sys) (hp : Parked s) (hstep : traffic_step c s = some t) :
    Parked t := by
  unfold traffic_step at hstep
  cases hpc : s.pc c <;> rw [hpc] at hstep <;> simp only [] at hstep
  · -- top: the car advances
    have hfresh := hp.fresh c (by rw [hpc]; decide)
    have hslow := hp.slow c
    have hl : Lanes (move c (throttle s.world)) := move_lanes c _ (throttle_lanes _ hp.lanes)
    have hslow' : ∀ i, 0 < approach i (move c (throttle s.world)) ∧
        approach i (move c (throttle s.world)) ≤ 0.0006 := fun i => by
      rw [move_approach, throttle_approach]; exact hp.slow i
    have hfar' : ∀ i, 29 ≤ dist i (move c (throttle s.world)) := fun i => by
      by_cases h : i = c
      · subst h
        rw [move_dist_self, throttle_dist, throttle_approach]
        norm_num at hslow ⊢
        linarith
      · rw [move_dist_other _ _ _ h, throttle_dist]; exact hp.far i
    split_ifs at hstep with hov
    · injection hstep with hstep
      subst hstep
      exact {
        lanes := hl
        xres := hp.xres
        yres := hp.yres
        count := hp.count
        sem := hp.sem
        out := holds_update s c _ rfl hp.out
        slow := hslow'
        far := hfar'
        fresh := fun i hi => by
          by_cases h : i = c
          · subst h; simp at hi
          · show 30 ≤ dist i (move c (throttle s.world))
            rw [move_dist_other _ _ _ h, throttle_dist]
            exact hp.fresh i (by simpa [Function.update_noteq h] using hi) }
    · injection hstep with hstep
      subst hstep
      have hzero : overlap ((move c (throttle s.world)).cars c)
          (move c (throttle s.world)).intersection = 0 := by
        rcases overlap_zero_or_one ((move c (throttle s.world)).cars c)
          (move c (throttle s.world)).intersection with h | h
        · exact h
        · exact absurd (by rw [h]; norm_num) hov
      exact {
        lanes := hl
        xres := hp.xres
        yres := hp.yres
        count := hp.count
        sem := hp.sem
        out := holds_update s c _ rfl hp.out
        slow := hslow'
        far := hfar'
        fresh := fun i hi => by
          by_cases h : i = c
          · subst h
            exact outside_far _ hl i (hfar' i) hzero
          · show 30 ≤ dist i (move c (throttle s.world))
            rw [move_dist_other _ _ _ h, throttle_dist]
            exact hp.fresh i (by simpa [Function.update_noteq h] using hi) }
  · -- at sem_wait: no permit, no step
    rw [if_neg (by rw [hp.sem]; decide)] at hstep
    exact absurd hstep (by simp)
  · -- inside the loop: no car is there
    have := hp.out c
    rw [hpc] at this
    exact absurd this (by decide)
  · -- at sem_post: no car is there
    have := hp.out c
    rw [hpc] at this
    exact absurd this (by decide)
  · -- the window tests
    injection hstep with hstep
    subst hstep
    obtain ⟨⟨hl, hx, hy, hv⟩, hd⟩ :=
      wrap_cruise c s.world ⟨hp.lanes, hp.xres, hp.yres, hp.slow⟩
    exact {
      lanes := hl
      xres := hx
      yres := hy
      count := by
        show (wrap c s.world).g.ncollisions = 0
        rw [wrap_ncollisions]; exact hp.count
      sem := hp.sem
      out := holds_update s c _ rfl hp.out
      slow := hv
      far := fun i => le_trans (hp.far i) (hd i)
      fresh := fun i hi => by
        by_cases h : i = c
        · subst h
          exact le_trans (hp.fresh i (by rw [hpc]; decide)) (hd i)
        · exact le_trans (hp.fresh i (by simpa [Function.update_noteq h] using hi)) (hd i) }

theorem parked_act (a : Action) (s t : Sys) (hp : Parked s) (hsz : a.wellSized)
    (h : act a s = some t) : Parked t := by
  cases a with
  | car c => exact parked_car c s t hp h
  | event p =>
    simp only [act, Option.some.injEq] at h
    subst h
    exact parked_event p s hp hsz
  | physics =>
    simp only [act, Option.some.injEq] at h
    subst h
    exact parked_physics s hp

theorem parked_run (acts : List Action) (s t : Sys) (hp : Parked s)
    (hsz : ∀ a ∈ acts, a.wellSized) (h : run acts s = some t) : Parked t := by
  induction acts generalizing s with
  | nil =>
    simp only [run, Option.some.injEq] at h
    subst h; exact hp
  | cons a rest ih =>
    unfold run at h
    cases ha : act a s with
    | none => rw [ha] at h; exact absurd h (by simp)
    | some u =>
      rw [ha] at h
      exact ih u (parked_act a s u hp (hsz a (List.mem_cons_self _ _)) ha)
        (fun b hb => hsz b (List.mem_cons_of_mem _ hb)) h

theorem parked_events (queue : List Pending) (s : Sys) (d : Int) (hp : Parked s)
    (hq : ∀ p ∈ queue, p.e.wellSized) :
    Parked { s with
      world := (queue.foldl (fun (r : Int × World) p => handle p r.2) (d, s.world)).2 } := by
  induction queue generalizing s d with
  | nil => exact hp
  | cons p queue ih =>
    rw [List.foldl_cons]
    have h1 := parked_event p s hp (hq p (List.mem_cons_self _ _))
    have := ih (control_event p s) (handle p s.world).1 h1
      (fun q hq' => hq q (List.mem_cons_of_mem _ hq'))
    exact this

theorem tick_world (queue : List Pending) (s : World) :
    (tick queue s).2 =
      physics (queue.foldl (fun (r : Int × World) p => handle p r.2) (0, s)).2 := rfl

theorem parked_tick (queue : List Pending) (s : Sys) (hp : Parked s)
    (hq : ∀ p ∈ queue, p.e.wellSized) :
    Parked { s with world := (tick queue s.world).2 } := by
  have h := parked_physics _ (parked_events queue s 0 hp hq)
  rw [tick_world]
  unfold control_physics at h
  exact h

/-- C7: the collision count never decreases.  In every state `t` that the
program reaches from the start of `main` (car threads and control thread
interleaved, every `ConfigureNotify` with a size that is not negative), a frame
of the main loop (the pending events handled through `check_resize`,
`check_mouse` and `check_keys`, then `physics`) ends with `g.ncollisions` at
least what it was; and so does every continuation of the run. -/
theorem count_never_decreases (seed : Nat → Nat) (acts : List Action) (t : Sys)
    (hsz : ∀ a ∈ acts, a.wellSized) (hrun : run acts (main_start seed) = some t) :
    (∀ queue : List Pending, (∀ p ∈ queue, p.e.wellSized) →
      t.world.g.ncollisions ≤ (tick queue t.world).2.g.ncollisions) ∧
    (∀ (more : List Action) (u : Sys), (∀ a ∈ more, a.wellSized) → run more t = some u →
      t.world.g.ncollisions ≤ u.world.g.ncollisions) := by
  have hp := parked_run acts _ t (parked_main_start seed) hsz hrun
  refine ⟨fun queue hq => ?_, fun more u hm hu => ?_⟩
  · have := (parked_tick queue t hp hq).count
    simp only [] at this
    rw [this, hp.count]
  · have := (parked_run more t u hp hm hu).count
    rw [this, hp.count]

theorem run_main_queued : run [Action.car 0] (main_start seed2) = some main_queued := by
  simp only [run, act, main_start_step]

/-- C7 at a concrete frame: car 0 has taken its first step and stands at
`sem_wait`; the frame that handles the `ConfigureNotify` of a 400 by 400 window
does not decrease the count. -/
theorem count_never_decreases_witness :
    main_queued.world.g.ncollisions ≤
      (tick [⟨seed2, XEvent.ConfigureNotify 400 400⟩] main_queued.world).2.g.ncollisions :=
  (count_never_decreases seed2 [Action.car 0] main_queued
    (fun a ha => by
      rw [List.mem_singleton] at ha
      subst ha
      exact True.intro)
    run_main_queued).1 [⟨seed2, XEvent.ConfigureNotify 400 400⟩]
    (fun p hp => by
      rw [List.mem_singleton] at hp
      subst hp
      exact ⟨by norm_num, by norm_num⟩)

/-! ## Theorems: resize -/

theorem on_resize_holders (seed : Nat → Nat) (e : XEvent) (s : Sys) :
    holders (on_resize seed e s) = holders s := rfl

theorem act_permits (a : Action) (s t : Sys) (h : act a s = some t) :
    t.sem.value + holders t = s.sem.value + holders s := by
  cases a with
  | car c => exact step_permits s t ⟨c, h⟩
  | event p =>
    simp only [act, Option.some.injEq] at h
    subst h; rfl
  | physics =>
    simp only [act, Option.some.injEq] at h
    subst h; rfl

theorem run_permits (acts : List Action) (s t : Sys) (h : run acts s = some t) :
    t.sem.value + holders t = s.sem.value + holders s := by
  induction acts generalizing s with
  | nil =>
    simp only [run, Option.some.injEq] at h
    subst h; rfl
  | cons a rest ih =>
    unfold run at h
    cases ha : act a s with
    | none => rw [ha] at h; exact absurd h (by simp)
    | some u =>
      rw [ha] at h
      rw [ih u h, act_permits a s u ha]

/-- C9, as stated, fails.  When `check_resize` handles a `ConfigureNotify`
for a 400 by 400 window in the state in which `main` created the threads, car 0
is afterwards at (430, 179) while the centre of the intersection is at
(200, 200). -/
theorem resize_counterexample :
    ((on_resize seed2 (XEvent.ConfigureNotify 400 400) (main_start seed2)).world.cars 0).pos0
        = 430 ∧
    ((on_resize seed2 (XEvent.ConfigureNotify 400 400) (main_start seed2)).world.cars 0).pos1
        = 179 ∧
    (on_resize seed2 (XEvent.ConfigureNotify 400 400)
        (main_start seed2)).world.intersection.pos0 = 200 ∧
    (on_resize seed2 (XEvent.ConfigureNotify 400 400)
        (main_start seed2)).world.intersection.pos1 = 200 := by
  have h200 : Int.tdiv 400 2 = 200 := rfl
  refine ⟨?_, ?_, ?_, ?_⟩
  · simp only [on_resize, check_resize, init_car0]
    norm_num
  · simp only [on_resize, check_resize, init_car0, h200]
    norm_num
  · simp only [on_resize, check_resize, init_intersection, h200]
    norm_num
  · simp only [on_resize, check_resize, init_intersection, h200]
    norm_num

/-- C9, amended: in every state the program reaches, after `check_resize`
for a `ConfigureNotify` of size `width` by `height` the intersection is centred
at `(width / 2, height / 2)` (C integer division) and every car stands at the
start of its lane: car 0 at `(width + 30, height / 2 - 21)`, car 1 at
`(width / 2 - 21, -30)`, car 2 at `(-40, height / 2 + 21)`, car 3 at
`(width / 2 + 21, height + 30)`; and no car holds the intersection token. -/
theorem resize_layout (seed0 : Nat → Nat) (acts : List Action) (t : Sys)
    (hrun : run acts (main_start seed0) = some t) (seed : Nat → Nat) (width height : Int) :
    (on_resize seed (XEvent.ConfigureNotify width height) t).world.intersection.pos0 =
      ((Int.tdiv width 2 : Int) : ℚ) ∧
    (on_resize seed (XEvent.ConfigureNotify width height) t).world.intersection.pos1 =
      ((Int.tdiv height 2 : Int) : ℚ) ∧
    ((on_resize seed (XEvent.ConfigureNotify width height) t).world.cars 0).pos0 =
      (width : ℚ) + 30 ∧
    ((on_resize seed (XEvent.ConfigureNotify width height) t).world.cars 0).pos1 =
      ((Int.tdiv height 2 : Int) : ℚ) - 21 ∧
    ((on_resize seed (XEvent.ConfigureNotify width height) t).world.cars 1).pos0 =
      ((Int.tdiv width 2 : Int) : ℚ) - 21 ∧
    ((on_resize seed (XEvent.ConfigureNotify width height) t).world.cars 1).pos1 = -30 ∧
    ((on_resize seed (XEvent.ConfigureNotify width height) t).world.cars 2).pos0 = -40 ∧
    ((on_resize seed (XEvent.ConfigureNotify width height) t).world.cars 2).pos1 =
      ((Int.tdiv height 2 : Int) : ℚ) + 21 ∧
    ((on_resize seed (XEvent.ConfigureNotify width height) t).world.cars 3).pos0 =
      ((Int.tdiv width 2 : Int) : ℚ) + 21 ∧
    ((on_resize seed (XEvent.ConfigureNotify width height) t).world.cars 3).pos1 =
      (height : ℚ) + 30 ∧
    holders (on_resize seed (XEvent.ConfigureNotify width height) t) = 0 := by
  have hperm := run_permits acts _ t hrun
  rw [holders_main_start] at hperm
  have hsem : (main_start seed0).sem.value = 0 := rfl
  rw [hsem] at hperm
  have hnone : holders t = 0 := by omega
  rw [on_resize_holders, hnone]
  simp only [on_resize, check_resize, init_intersection, init_car0, init_car1, init_car2,
    init_car3]
  push_cast
  simp

/-- C9 amended, at a concrete state: car 0 stands at `sem_wait` when the window
becomes 400 by 400; afterwards it is at x = 430 and no car holds the token. -/
theorem resize_layout_witness :
    ((on_resize seed2 (XEvent.ConfigureNotify 400 400) main_queued).world.cars 0).pos0 = 430 ∧
    holders (on_resize seed2 (XEvent.ConfigureNotify 400 400) main_queued) = 0 := by
  have h := resize_layout seed2 [Action.car 0] main_queued run_main_queued seed2 400 400
  refine ⟨?_, h.2.2.2.2.2.2.2.2.2.2⟩
  rw [h.2.2.1]
  norm_num

end Intersection
